import Mathlib

/-!
Verification of the vote admission subsystem of the ai-art-arena repository.

The development shallowly embeds:
  - the persistent data model and its storage-level invariants
    (`supabase/migrations/20241203000001_initial_schema.sql`): the
    `contests`, `artworks` and `votes` tables (projected to the columns the
    vote admission subsystem reads), the two unique indexes
    `idx_votes_unique_user_contest` and `idx_votes_unique_ip_contest`, and
    the `update_artwork_vote_count` trigger;
  - the SQL helper `has_user_voted`
    (`supabase/migrations/20241203000004_contest_queries.sql`);
  - the rate-limiting helpers `getClientIP`, `getVoteRateLimitKey`,
    `getApiRateLimitKey` and the limiter configurations `voteRateLimit`
    (1 per 24 h) and `apiRateLimit` (100 per minute)
    (`lib/security/ratelimit.ts`), together with a sliding-window limiter
    semantics modelled from the spec (the Upstash library is an external
    dependency, not part of this repository);
  - the IP hashing of `lib/utils.ts` / the vote route;
  - the `POST /api/vote` handler (`app/api/vote/route.ts`), both as a
    sequential function `postVote` that also records the sequence of
    storage effects, and as a small-step machine (`stepVote`, `runSched`)
    whose atomic steps are the individual storage operations, used to
    reason about interleavings of concurrent requests.

Machine integers do not overflow in any of the embedded code paths, so
timestamps are `Int` (milliseconds) and counters are `Nat`.
-/

/-! ## Data model (initial_schema.sql, claim-relevant columns) -/

/-- Row of the `contests` table, projected to the columns the vote route
reads: `status ∈ {upcoming, active, archived}` and `end_date` (a
timestamp in milliseconds). -/
structure Contest where
  id : String
  status : String
  end_date : Int
deriving DecidableEq

/-- Row of the `artworks` table, projected to `id`, `contest_id` and the
denormalized `vote_count` (`INTEGER NOT NULL DEFAULT 0 CHECK (vote_count >= 0)`,
encoded as `Nat`). -/
structure Artwork where
  id : String
  contest_id : String
  vote_count : Nat
deriving DecidableEq

/-- Row of the `votes` table: `user_id` is nullable, `ip_hash` is always
populated, `user_agent` is free-form client metadata. -/
structure Vote where
  artwork_id : String
  contest_id : String
  user_id : Option String
  ip_hash : String
  user_agent : Option String
deriving DecidableEq

/-- The persistent store: the three tables. -/
structure DB where
  contests : List Contest
  artworks : List Artwork
  votes : List Vote
deriving DecidableEq

/-- The query `SELECT ... FROM contests WHERE id = cid` with `.single()`. -/
def findContest (db : DB) (cid : String) : Option Contest :=
  db.contests.find? (fun c => c.id == cid)

/-- The query `SELECT ... FROM artworks WHERE id = aid` with `.single()`. -/
def findArtwork (db : DB) (aid : String) : Option Artwork :=
  db.artworks.find? (fun a => a.id == aid)

/-- The two unique indexes of the `votes` table, checked against a list of
existing rows: `idx_votes_unique_user_contest` on `(user_id, contest_id)
WHERE user_id IS NOT NULL`, and `idx_votes_unique_ip_contest` on
`(ip_hash, contest_id)`. Returns `true` when inserting `v` would violate
one of them. -/
def violatesUniqueL (votes : List Vote) (v : Vote) : Bool :=
  (match v.user_id with
   | some u => votes.any (fun w => w.user_id == some u && w.contest_id == v.contest_id)
   | none => false)
  || votes.any (fun w => w.ip_hash == v.ip_hash && w.contest_id == v.contest_id)

/-- Uniqueness check against the whole store. -/
def violatesUnique (db : DB) (v : Vote) : Bool :=
  violatesUniqueL db.votes v

/-- Storage-level error signal of an insert; Postgres reports a unique
constraint violation with SQLSTATE 23505, every other failure is collapsed
into `other`. -/
inductive DbError where
  | uniqueViolation
  | other
deriving DecidableEq

/-- The statement `INSERT INTO votes ...` under the two unique indexes, together with the
`AFTER INSERT` row of the `maintain_artwork_vote_count` trigger: the insert
and the `vote_count` increment of the voted artwork are one atomic unit. -/
def insertVote (db : DB) (v : Vote) : Except DbError DB :=
  if violatesUnique db v then Except.error DbError.uniqueViolation
  else Except.ok
    { db with
      votes := v :: db.votes,
      artworks := db.artworks.map (fun a =>
        if a.id == v.artwork_id then { a with vote_count := a.vote_count + 1 } else a) }

/-- The statement `DELETE FROM votes` of one row together with the `AFTER DELETE` row of
the `maintain_artwork_vote_count` trigger (deletes happen only as
administrative cascades, not in the vote route). -/
def deleteVote (db : DB) (v : Vote) : DB :=
  if v ∈ db.votes then
    { db with
      votes := db.votes.erase v,
      artworks := db.artworks.map (fun a =>
        if a.id == v.artwork_id then { a with vote_count := a.vote_count - 1 } else a) }
  else db

/-- The SQL function `has_user_voted(p_contest_id, p_user_id, p_ip_hash)`:
if `p_user_id` is not null it counts that user's votes on the contest;
otherwise, if `p_ip_hash` is not null it counts that hash's votes on the
contest; otherwise it returns false. Returns `v_vote_count > 0`. -/
def has_user_voted (db : DB) (p_contest_id : String)
    (p_user_id : Option String) (p_ip_hash : Option String) : Bool :=
  match p_user_id with
  | some u =>
    decide (0 < db.votes.countP (fun v => v.contest_id == p_contest_id && v.user_id == some u))
  | none =>
    match p_ip_hash with
    | some h =>
      decide (0 < db.votes.countP (fun v => v.contest_id == p_contest_id && v.ip_hash == h))
    | none => false

/-! ## Identity resolution (lib/security/ratelimit.ts, lib/utils.ts, vote route) -/

/-- The request headers the vote route reads. -/
structure ReqHeaders where
  xForwardedFor : Option String
  xRealIP : Option String
  cfConnectingIP : Option String
  userAgent : Option String
deriving DecidableEq

/-- A vote request as the route sees it: the parsed JSON body fields
(absent fields are `none`), the headers, `request.ip`, the authenticated
user returned by `supabase.auth.getUser()` (the auth provider is an
external collaborator, so its answer is part of the request), and the
request's clock reading (`Date.now()`, taken as one value per request). -/
structure Req where
  body_artwork_id : Option String
  body_contest_id : Option String
  headers : ReqHeaders
  reqIp : Option String
  userId : Option String
  now : Int
deriving DecidableEq

/-- The helper `getClientIP(request)`: first truthy of `x-forwarded-for` (first entry
of the comma-separated list, trimmed), `cf-connecting-ip`, `x-real-ip`,
`request.ip`, else the sentinel `"unknown"`. Empty strings are falsy in
the source and are skipped. -/
def getClientIP (req : Req) : String :=
  let fwd := req.headers.xForwardedFor.getD ""
  if fwd != "" then ((fwd.splitOn ",").headD "").trim
  else
    let cf := req.headers.cfConnectingIP.getD ""
    if cf != "" then cf
    else
      let real := req.headers.xRealIP.getD ""
      if real != "" then real
      else
        match req.reqIp with
        | some ip => if ip != "" then ip else "unknown"
        | none => "unknown"

/-- Models `hashIP` / the route's inline hash: sha256 of `ip ++ salt`,
hex-encoded and truncated to 32 characters. The claims rely only on the
hash being deterministic and collision-free on the inputs considered, so
the one-way function is modelled as an injective tagging of the address. -/
def hashIP (ip : String) : String :=
  "iphash:" ++ ip

/-- The helper `getVoteRateLimitKey(ip, contestId)`: the vote limiter key combines the
client IP and the contest id. -/
def getVoteRateLimitKey (ip : String) (contestId : String) : String :=
  ip ++ ":" ++ contestId

/-- The helper `getApiRateLimitKey(ip)`: the general API limiter key is the client IP
alone. -/
def getApiRateLimitKey (ip : String) : String :=
  ip

/-- The spec's `VoterIdentity{accountId: optional, addressHash: string}`
(spec section 4.1), as the route materializes it: the optional
authenticated account id plus the salted hash of the client address. -/
structure VoterIdentity where
  accountId : Option String
  addressHash : String
deriving DecidableEq

/-- The hash of the request's resolved client address. -/
def reqIpHash (req : Req) : String :=
  hashIP (getClientIP req)

/-- Resolve a request's voter identity. -/
def resolveIdentity (req : Req) : VoterIdentity :=
  { accountId := req.userId, addressHash := reqIpHash req }

/-! ## Input validation (vote route) -/

/-- One character of the UUID regex character class `[0-9a-f]` with the
`i` flag. -/
def isHexDigit (c : Char) : Bool :=
  c.isDigit || (('a' ≤ c) && (c ≤ 'f')) || (('A' ≤ c) && (c ≤ 'F'))

/-- Split a character list at `-`, keeping empty groups (the grouping the
UUID regex anchors impose). -/
def splitDash : List Char → List (List Char)
  | [] => [[]]
  | c :: cs =>
    let r := splitDash cs
    if c = '-' then [] :: r
    else
      match r with
      | g :: gs => (c :: g) :: gs
      | [] => [[c]]

/-- The route's UUID validation
`/^[0-9a-f]{8}-[0-9a-f]{4}-[0-9a-f]{4}-[0-9a-f]{4}-[0-9a-f]{12}$/i`:
five dash-separated groups of hex digits with lengths 8-4-4-4-12. -/
def uuidOk (s : String) : Bool :=
  let gs := splitDash s.toList
  (gs.map List.length == [8, 4, 4, 4, 12]) && gs.all (fun g => g.all isHexDigit)

/-! ## Rate limiter

The limiter configurations and keys are from `lib/security/ratelimit.ts`.
The sliding-window algorithm itself lives in the external Upstash library,
which is not part of this repository; its semantics is modelled from the
spec (section 4.2): a per-key window of admitted events, a request is
admitted when fewer than `tokens` admitted events lie in the rolling
window `(now - windowMs, now]`, the admission itself is atomic, expiry is
computed relative to the events in the current window, denials are not
recorded, and a denial reports `remaining = 0` and the reset time of the
oldest event in the window. -/

/-- A limiter configuration: quota and window length in milliseconds. -/
structure RLConfig where
  tokens : Nat
  windowMs : Int
deriving DecidableEq

/-- The source configures `voteRateLimit` as a sliding window of 1 per 24 hours. -/
def voteRateLimitCfg : RLConfig :=
  { tokens := 1, windowMs := 24 * 60 * 60 * 1000 }

/-- The source configures `apiRateLimit` as a sliding window of 100 per minute. -/
def apiRateLimitCfg : RLConfig :=
  { tokens := 100, windowMs := 60 * 1000 }

/-- The result shape of `ratelimit.limit(key)`. -/
structure LimitResult where
  success : Bool
  limit : Nat
  remaining : Nat
  reset : Int
deriving DecidableEq

/-- Limiter backing store: the admitted events, as (key, timestamp) pairs. -/
abbrev RLState := List (String × Int)

/-- The timestamps of the admitted events of `key` inside the rolling
window ending at `now`. -/
def windowEvents (cfg : RLConfig) (st : RLState) (key : String) (now : Int) : List Int :=
  (st.filter (fun e =>
    e.1 == key && decide (now - cfg.windowMs < e.2) && decide (e.2 ≤ now))).map Prod.snd

/-- Minimum of a list of timestamps (`dflt` for the empty list). -/
def minTs (l : List Int) (dflt : Int) : Int :=
  match l with
  | [] => dflt
  | x :: xs => xs.foldl min x

/-- One atomic `limit(key)` call: admit and record the event iff the
window holds fewer than `tokens` admitted events. -/
def rlLimit (cfg : RLConfig) (st : RLState) (key : String) (now : Int) :
    LimitResult × RLState :=
  if (windowEvents cfg st key now).length < cfg.tokens then
    ({ success := true, limit := cfg.tokens,
       remaining := cfg.tokens - (windowEvents cfg st key now).length - 1,
       reset := now + cfg.windowMs },
     (key, now) :: st)
  else
    ({ success := false, limit := cfg.tokens, remaining := 0,
       reset := minTs (windowEvents cfg st key now) now + cfg.windowMs },
     st)

/-! ## The vote route (app/api/vote/route.ts) -/

/-- The storage-touching operations the route can perform, in the order
the code may issue them. `rlCheck` is the limiter call; the remaining five
are database accesses. -/
inductive Effect where
  | rlCheck
  | dbReadDup
  | dbReadContest
  | dbReadArtwork
  | dbInsert
  | dbReadCount
deriving DecidableEq

/-- The JSON payload of a route response, projected to the fields the
route writes: HTTP status, the `error` message, `success`, `voteCount`,
`remaining` (an `Int`: the success path returns `remaining - 1`), `limit`
and `resetAt`. -/
structure ApiResponse where
  status : Nat
  error : Option String := none
  success : Bool := false
  voteCount : Option Nat := none
  remaining : Option Int := none
  limit : Option Nat := none
  resetAt : Option Int := none
deriving DecidableEq

/-- Shared mutable state of the service: the limiter store and the
database. -/
structure Sys where
  rl : RLState
  db : DB
deriving DecidableEq

/-- The artwork id of a request past validation. -/
def reqAid (req : Req) : String :=
  req.body_artwork_id.getD ""

/-- The contest id of a request past validation. -/
def reqCid (req : Req) : String :=
  req.body_contest_id.getD ""

/-- The `votes` row the route inserts for a request. -/
def mkVote (req : Req) : Vote :=
  { artwork_id := reqAid req, contest_id := reqCid req,
    user_id := req.userId, ip_hash := reqIpHash req,
    user_agent := req.headers.userAgent }

/-- The expression `Math.ceil((reset - Date.now()) / (1000 * 60 * 60))` of the 429
response, as exact integer ceiling division. -/
def hoursUntilReset (reset : Int) (now : Int) : Int :=
  -((now - reset).ediv 3600000)

/-- The message of the 429 response. -/
def rateLimitedMsg (h : Int) : String :=
  "You can only vote once per 24 hours. Try again in " ++ toString h
    ++ " hour" ++ (if h != 1 then "s" else "") ++ "."

/-- The `POST /api/vote` handler, straight-line: parse/validate the body,
call the vote limiter, hash the IP, run the advisory `has_user_voted`
check, read and check the contest, read and check the artwork, insert the
vote (the unique indexes and the tally trigger fire inside `insertVote`),
and finally re-read the artwork's `vote_count` in a separate query.
Returns the response, the updated shared state, and the ordered trace of
storage effects performed. -/
def postVote (req : Req) (sys : Sys) : ApiResponse × Sys × List Effect :=
  match req.body_artwork_id, req.body_contest_id with
  | some aid, some cid =>
    if aid == "" || cid == "" then
      ({ status := 400, error := some "Missing required fields: artwork_id and contest_id" },
       sys, [])
    else if !(uuidOk aid && uuidOk cid) then
      ({ status := 400, error := some "Invalid UUID format for artwork_id or contest_id" },
       sys, [])
    else
      match rlLimit voteRateLimitCfg sys.rl (getVoteRateLimitKey (getClientIP req) cid) req.now with
      | (lr, rl2) =>
      if !lr.success then
        ({ status := 429,
           error := some (rateLimitedMsg (hoursUntilReset lr.reset req.now)),
           resetAt := some lr.reset, limit := some lr.limit, remaining := some 0 },
         { sys with rl := rl2 }, [Effect.rlCheck])
      else if has_user_voted sys.db cid req.userId (some (reqIpHash req)) then
        ({ status := 409, error := some "You have already voted on this contest" },
         { sys with rl := rl2 }, [Effect.rlCheck, Effect.dbReadDup])
      else
        match findContest sys.db cid with
        | none =>
          ({ status := 404, error := some "Contest not found" },
           { sys with rl := rl2 }, [Effect.rlCheck, Effect.dbReadDup, Effect.dbReadContest])
        | some c =>
          if c.status != "active" then
            ({ status := 400, error := some "This contest is not currently accepting votes" },
             { sys with rl := rl2 }, [Effect.rlCheck, Effect.dbReadDup, Effect.dbReadContest])
          else if c.end_date < req.now then
            ({ status := 400, error := some "This contest has ended" },
             { sys with rl := rl2 }, [Effect.rlCheck, Effect.dbReadDup, Effect.dbReadContest])
          else
            match findArtwork sys.db aid with
            | none =>
              ({ status := 404, error := some "Artwork not found" },
               { sys with rl := rl2 },
               [Effect.rlCheck, Effect.dbReadDup, Effect.dbReadContest, Effect.dbReadArtwork])
            | some aw =>
              if aw.contest_id != cid then
                ({ status := 400, error := some "Artwork does not belong to this contest" },
                 { sys with rl := rl2 },
                 [Effect.rlCheck, Effect.dbReadDup, Effect.dbReadContest, Effect.dbReadArtwork])
              else
                match insertVote sys.db (mkVote req) with
                | Except.error e =>
                  if e = DbError.uniqueViolation then
                    ({ status := 409, error := some "You have already voted on this contest" },
                     { sys with rl := rl2 },
                     [Effect.rlCheck, Effect.dbReadDup, Effect.dbReadContest,
                      Effect.dbReadArtwork, Effect.dbInsert])
                  else
                    ({ status := 500, error := some "Failed to submit vote. Please try again." },
                     { sys with rl := rl2 },
                     [Effect.rlCheck, Effect.dbReadDup, Effect.dbReadContest,
                      Effect.dbReadArtwork, Effect.dbInsert])
                | Except.ok db2 =>
                  ({ status := 200, success := true,
                     voteCount := some (((findArtwork db2 aid).map Artwork.vote_count).getD 0),
                     remaining := some ((lr.remaining : Int) - 1) },
                   { rl := rl2, db := db2 },
                   [Effect.rlCheck, Effect.dbReadDup, Effect.dbReadContest,
                    Effect.dbReadArtwork, Effect.dbInsert, Effect.dbReadCount])
  | _, _ =>
    ({ status := 400, error := some "Missing required fields: artwork_id and contest_id" },
     sys, [])

/-! ## Small-step semantics of the route

For concurrency reasoning, the same handler is cut at its suspension
points: each call into the limiter or the database is one atomic step, and
everything pure between two such calls is folded into the step that
follows it. A request's local state is its program counter plus the
limiter result it still holds. -/

/-- Local state of one in-flight request. -/
inductive Phase where
  | start
  | limited (lr : LimitResult)
  | checkedDup (lr : LimitResult)
  | checkedContest (lr : LimitResult)
  | checkedArtwork (lr : LimitResult)
  | inserted (lr : LimitResult)
  | done (resp : ApiResponse)
deriving DecidableEq

/-- One atomic step of one request against the shared state. Mirrors
`postVote` segment by segment; a `done` request no-ops. -/
def stepVote (req : Req) (p : Phase) (sys : Sys) : Phase × Sys :=
  match p with
  | Phase.start =>
    match req.body_artwork_id, req.body_contest_id with
    | some aid, some cid =>
      if aid == "" || cid == "" then
        (Phase.done
          { status := 400,
            error := some "Missing required fields: artwork_id and contest_id" }, sys)
      else if !(uuidOk aid && uuidOk cid) then
        (Phase.done
          { status := 400,
            error := some "Invalid UUID format for artwork_id or contest_id" }, sys)
      else
        match rlLimit voteRateLimitCfg sys.rl (getVoteRateLimitKey (getClientIP req) cid) req.now with
        | (lr, rl2) =>
        if lr.success then
          (Phase.limited lr, { sys with rl := rl2 })
        else
          (Phase.done
            { status := 429,
              error := some (rateLimitedMsg (hoursUntilReset lr.reset req.now)),
              resetAt := some lr.reset, limit := some lr.limit, remaining := some 0 },
           { sys with rl := rl2 })
    | _, _ =>
      (Phase.done
        { status := 400,
          error := some "Missing required fields: artwork_id and contest_id" }, sys)
  | Phase.limited lr =>
    if has_user_voted sys.db (reqCid req) req.userId (some (reqIpHash req)) then
      (Phase.done { status := 409, error := some "You have already voted on this contest" }, sys)
    else
      (Phase.checkedDup lr, sys)
  | Phase.checkedDup lr =>
    match findContest sys.db (reqCid req) with
    | none => (Phase.done { status := 404, error := some "Contest not found" }, sys)
    | some c =>
      if c.status != "active" then
        (Phase.done
          { status := 400,
            error := some "This contest is not currently accepting votes" }, sys)
      else if c.end_date < req.now then
        (Phase.done { status := 400, error := some "This contest has ended" }, sys)
      else
        (Phase.checkedContest lr, sys)
  | Phase.checkedContest lr =>
    match findArtwork sys.db (reqAid req) with
    | none => (Phase.done { status := 404, error := some "Artwork not found" }, sys)
    | some aw =>
      if aw.contest_id != reqCid req then
        (Phase.done
          { status := 400,
            error := some "Artwork does not belong to this contest" }, sys)
      else
        (Phase.checkedArtwork lr, sys)
  | Phase.checkedArtwork lr =>
    match insertVote sys.db (mkVote req) with
    | Except.error e =>
      if e = DbError.uniqueViolation then
        (Phase.done { status := 409, error := some "You have already voted on this contest" },
         sys)
      else
        (Phase.done { status := 500, error := some "Failed to submit vote. Please try again." },
         sys)
    | Except.ok db2 => (Phase.inserted lr, { sys with db := db2 })
  | Phase.inserted lr =>
    (Phase.done
      { status := 200, success := true,
        voteCount := some (((findArtwork sys.db (reqAid req)).map Artwork.vote_count).getD 0),
        remaining := some ((lr.remaining : Int) - 1) }, sys)
  | Phase.done r => (Phase.done r, sys)

/-- Initial local states of a batch of requests. -/
def initPhases (reqs : List Req) : List Phase :=
  List.replicate reqs.length Phase.start

/-- Run one scheduled step: request `i` (if it exists) takes its next
atomic step against the shared state. -/
def schedStep (reqs : List Req) (cfg : Sys × List Phase) (i : Nat) : Sys × List Phase :=
  match reqs[i]?, cfg.2[i]? with
  | some r, some p =>
    match stepVote r p cfg.1 with
    | (p2, s2) => (s2, cfg.2.set i p2)
  | _, _ => cfg

/-- Run an interleaving: the schedule is the sequence of request indices
that take steps. -/
def runSched (reqs : List Req) (sched : List Nat) (cfg : Sys × List Phase) : Sys × List Phase :=
  sched.foldl (schedStep reqs) cfg

/-- Request `i` has produced its response. -/
def isDone : Phase → Bool
  | Phase.done _ => true
  | _ => false

/-- Request finished with the success outcome. -/
def isSuccessDone : Phase → Bool
  | Phase.done r => r.success
  | _ => false

/-- Request finished with the 409 Conflict outcome. -/
def is409Done : Phase → Bool
  | Phase.done r => r.status == 409
  | _ => false

/-- Request finished with the 429 rate-limited outcome. -/
def is429Done : Phase → Bool
  | Phase.done r => r.status == 429
  | _ => false

/-- Request holds or held a winning ledger insert: it is past a
successful `insertVote`, or done with the success outcome. -/
def isWinner : Phase → Bool
  | Phase.inserted _ => true
  | Phase.done r => r.success
  | _ => false

/-- Request has been admitted by the rate limiter: it is in flight past
the limiter, or done with an outcome only reachable past the limiter
(success or 409). -/
def isAdmitted : Phase → Bool
  | Phase.start => false
  | Phase.done r => r.success || r.status == 409
  | _ => true

/-- The vote count of a finished request's response, if any. -/
def doneVoteCount : Phase → Option Nat
  | Phase.done r => r.voteCount
  | _ => none

/-! ## The derived-tally invariant (claim C2) -/

/-- The tally consistency invariant: every artwork's denormalized
`vote_count` equals the number of `votes` rows referencing it. -/
def tallyInv (db : DB) : Prop :=
  ∀ a ∈ db.artworks, a.vote_count = db.votes.countP (fun v => v.artwork_id == a.id)

/-- The storage operations that touch the ledger or create artworks. -/
inductive LedgerOp where
  | insVote (v : Vote)
  | delVote (v : Vote)
  | newArtwork (id : String) (contest_id : String)
deriving DecidableEq

/-- Apply one operation: a vote insert that hits a unique index leaves the
store unchanged; artwork creation uses the schema default `vote_count = 0`. -/
def applyOp (db : DB) (op : LedgerOp) : DB :=
  match op with
  | LedgerOp.insVote v =>
    match insertVote db v with
    | Except.ok db2 => db2
    | Except.error _ => db
  | LedgerOp.delVote v => deleteVote db v
  | LedgerOp.newArtwork id cid =>
    { db with artworks := db.artworks ++ [{ id := id, contest_id := cid, vote_count := 0 }] }

/-- Side condition of an operation: a created artwork's fresh id is not
referenced by any existing vote (guaranteed by UUID generation and the
foreign keys in the schema). -/
def opOk (db : DB) (op : LedgerOp) : Bool :=
  match op with
  | LedgerOp.newArtwork id _ => db.votes.countP (fun v => v.artwork_id == id) == 0
  | _ => true

/-- All operations of a sequence satisfy their side conditions at the
states where they apply. -/
def opsOk : DB → List LedgerOp → Bool
  | _, [] => true
  | db, op :: ops => opOk db op && opsOk (applyOp db op) ops

/-! ## Helper lemmas -/

/-- A string passing UUID validation is nonempty. -/
theorem uuidOk_ne_empty {s : String} (h : uuidOk s = true) : (s == "") = false := by
  rcases hs : s == "" with _ | _
  · rfl
  · have hse : s = "" := eq_of_beq hs
    subst hse
    exact absurd h (by decide)

/-- An admitted `limit` call records its event in front of the store. -/
theorem rlLimit_success_state {cfg : RLConfig} {st : RLState} {key : String} {now : Int}
    (h : (rlLimit cfg st key now).1.success = true) :
    (rlLimit cfg st key now).2 = (key, now) :: st := by
  unfold rlLimit at *
  by_cases hc : (windowEvents cfg st key now).length < cfg.tokens
  · simp [hc]
  · simp [hc] at h

/-- A denied `limit` call leaves the store unchanged. -/
theorem rlLimit_denied_state {cfg : RLConfig} {st : RLState} {key : String} {now : Int}
    (h : (rlLimit cfg st key now).1.success = false) :
    (rlLimit cfg st key now).2 = st := by
  unfold rlLimit at *
  by_cases hc : (windowEvents cfg st key now).length < cfg.tokens
  · simp [hc] at h
  · simp [hc]

/-- A `limit` call denies exactly when the window already holds the full
quota. -/
theorem rlLimit_success_iff {cfg : RLConfig} {st : RLState} {key : String} {now : Int} :
    (rlLimit cfg st key now).1.success = true ↔
      (windowEvents cfg st key now).length < cfg.tokens := by
  unfold rlLimit
  by_cases hc : (windowEvents cfg st key now).length < cfg.tokens <;> simp [hc]

/-- Events never leave the limiter store. -/
theorem rlLimit_state_mono (cfg : RLConfig) (st : RLState) (key : String) (now : Int) :
    ∀ e ∈ st, e ∈ (rlLimit cfg st key now).2 := by
  intro e he
  unfold rlLimit
  by_cases hc : (windowEvents cfg st key now).length < cfg.tokens <;> simp [hc]
  · exact Or.inr he
  · exact he

/-- Every event inside a window satisfies the window bounds. -/
theorem windowEvents_mem {cfg : RLConfig} {st : RLState} {key : String} {now : Int}
    {x : Int} (h : x ∈ windowEvents cfg st key now) :
    now - cfg.windowMs < x ∧ x ≤ now := by
  unfold windowEvents at h
  rcases List.mem_map.1 h with ⟨e, he, rfl⟩
  have := List.mem_filter.1 he
  rcases this with ⟨-, hpred⟩
  simp only [Bool.and_eq_true, decide_eq_true_eq] at hpred
  exact ⟨hpred.1.2, hpred.2⟩

/-- The window over an empty store is empty. -/
theorem windowEvents_nil {cfg : RLConfig} {key : String} {now : Int} :
    windowEvents cfg [] key now = [] := rfl

/-- Lower bound of a fold-min over timestamps. -/
theorem foldl_min_lb {b x : Int} {l : List Int} (hx : b < x) (hl : ∀ y ∈ l, b < y) :
    b < l.foldl min x := by
  induction l generalizing x with
  | nil => exact hx
  | cons y ys ih =>
    simp only [List.foldl_cons]
    exact ih (lt_min hx (hl y (List.mem_cons_self y ys)))
      (fun z hz => hl z (List.mem_cons_of_mem _ hz))

/-- Lower bound of `minTs` over a nonempty list. -/
theorem minTs_lb {b : Int} {l : List Int} {d : Int} (hne : l ≠ [])
    (hl : ∀ y ∈ l, b < y) : b < minTs l d := by
  match l with
  | [] => exact absurd rfl hne
  | x :: xs =>
    exact foldl_min_lb (hl x (List.mem_cons_self x xs))
      (fun z hz => hl z (List.mem_cons_of_mem _ hz))

/-- A `find?` by id commutes with an id-preserving map. -/
theorem find_map_id_pres (l : List Artwork) (aid : String) (f : Artwork → Artwork)
    (hf : ∀ a, (f a).id = a.id) :
    (l.map f).find? (fun a => a.id == aid) = (l.find? (fun a => a.id == aid)).map f := by
  rw [List.find?_map]
  have hp : ((fun a => a.id == aid) ∘ f) = (fun a => a.id == aid) := by
    funext a
    simp [Function.comp, hf]
  rw [hp]

/-- The artworks table after `n` trigger increments of artwork `aid`. -/
def bumpArtworks (l : List Artwork) (aid : String) (n : Nat) : List Artwork :=
  l.map (fun a => if a.id == aid then { a with vote_count := a.vote_count + n } else a)

/-- Zero increments change nothing. -/
theorem bumpArtworks_zero (l : List Artwork) (aid : String) : bumpArtworks l aid 0 = l := by
  unfold bumpArtworks
  induction l with
  | nil => rfl
  | cons a t ih =>
    simp only [List.map_cons, ih]
    congr 1
    cases a with
    | mk i c vc =>
      by_cases h : i == aid <;> simp [h]

/-- One more trigger increment on top of `n`. -/
theorem bumpArtworks_succ (l : List Artwork) (aid : String) (n : Nat) :
    (bumpArtworks l aid n).map
        (fun a => if a.id == aid then { a with vote_count := a.vote_count + 1 } else a)
      = bumpArtworks l aid (n + 1) := by
  unfold bumpArtworks
  rw [List.map_map]
  congr 1
  funext a
  cases a with
  | mk i c vc =>
    by_cases h : i == aid <;> simp [Function.comp, h, Nat.add_assoc]

/-- The bump of an artwork preserves its id. -/
theorem bumpArtworks_id (aid : String) (n : Nat) (a : Artwork) :
    (if a.id == aid then { a with vote_count := a.vote_count + n } else a).id = a.id := by
  by_cases h : a.id == aid <;> simp [h]

/-- Counting over a `set` at a valid index, in addition form. -/
theorem countP_set_add {α : Type} (f : α → Bool) (l : List α) (i : Nat) (p q : α)
    (h : l[i]? = some p) :
    (l.set i q).countP f + (if f p then 1 else 0) = l.countP f + (if f q then 1 else 0) := by
  obtain ⟨hlt, hget⟩ := List.getElem?_eq_some_iff.1 h
  rw [List.countP_set f l i q hlt, hget]
  have hge : (if f p then 1 else 0) ≤ l.countP f := by
    by_cases hp : f p
    · simp only [hp, if_true]
      have : 0 < l.countP f := List.countP_pos_iff.2 ⟨p, by rw [← hget]; exact List.getElem_mem hlt, hp⟩
      omega
    · simp [hp]
  omega

/-- The uniqueness check distributes over an append of vote lists. -/
theorem violatesUniqueL_append (l1 l2 : List Vote) (v : Vote) :
    violatesUniqueL (l1 ++ l2) v = (violatesUniqueL l1 v || violatesUniqueL l2 v) := by
  unfold violatesUniqueL
  cases v.user_id with
  | none =>
    simp [List.any_append]
  | some u =>
    simp only [List.any_append]
    cases l1.any (fun w => w.user_id == some u && w.contest_id == v.contest_id) <;>
      cases l2.any (fun w => w.user_id == some u && w.contest_id == v.contest_id) <;>
      cases l1.any (fun w => w.ip_hash == v.ip_hash && w.contest_id == v.contest_id) <;>
      cases l2.any (fun w => w.ip_hash == v.ip_hash && w.contest_id == v.contest_id) <;>
      rfl

/-- Nothing conflicts with an empty vote list. -/
theorem violatesUniqueL_nil (v : Vote) : violatesUniqueL [] v = false := by
  unfold violatesUniqueL
  cases v.user_id <;> rfl

/-- The modelled hash is injective (distinct addresses give distinct hashes). -/
theorem hashIP_inj {a b : String} (h : hashIP a = hashIP b) : a = b := by
  unfold hashIP at h
  have hd := congrArg String.data h
  simp only [String.data_append] at hd
  have := List.append_cancel_left hd
  exact String.ext this

/-! ## Tally consistency (claim C2) -/

/-- A successful vote insert together with its trigger increment preserves
the tally invariant: the voted artwork gains exactly 1. -/
theorem tallyInv_insert (db : DB) (v : Vote) (hInv : tallyInv db) :
    tallyInv
      { db with
        votes := v :: db.votes,
        artworks := db.artworks.map (fun a =>
          if a.id == v.artwork_id then { a with vote_count := a.vote_count + 1 } else a) } := by
  intro a2 ha2
  simp only at ha2
  rcases List.mem_map.1 ha2 with ⟨a, ha, rfl⟩
  have hbase := hInv a ha
  by_cases hid : v.artwork_id = a.id
  · have hb1 : (a.id == v.artwork_id) = true := by simp [hid]
    have hb2 : (v.artwork_id == a.id) = true := by simp [hid]
    simp [hb1, hb2, List.countP_cons, hbase]
  · have hb1 : (a.id == v.artwork_id) = false := by
      simp
      intro hh
      exact absurd hh.symm hid
    have hb2 : (v.artwork_id == a.id) = false := by
      simp
      exact hid
    simp [hb1, hb2, List.countP_cons, hbase]

/-- A vote delete together with its trigger decrement preserves the tally
invariant: the artwork loses exactly 1. -/
theorem tallyInv_delete (db : DB) (v : Vote) (hInv : tallyInv db) (hv : v ∈ db.votes) :
    tallyInv
      { db with
        votes := db.votes.erase v,
        artworks := db.artworks.map (fun a =>
          if a.id == v.artwork_id then { a with vote_count := a.vote_count - 1 } else a) } := by
  intro a2 ha2
  simp only at ha2
  rcases List.mem_map.1 ha2 with ⟨a, ha, rfl⟩
  have hbase := hInv a ha
  obtain ⟨l1, l2, hnotin, hl, he⟩ := List.exists_erase_eq hv
  rw [hl] at hbase
  by_cases hid : v.artwork_id = a.id
  · have hb1 : (a.id == v.artwork_id) = true := by simp [hid]
    have hb2 : (v.artwork_id == a.id) = true := by simp [hid]
    simp only [List.countP_append, List.countP_cons, hb2, if_true] at hbase
    simp [hb1, he, List.countP_append]
    omega
  · have hb1 : (a.id == v.artwork_id) = false := by
      simp
      intro hh
      exact absurd hh.symm hid
    have hb2 : (v.artwork_id == a.id) = false := by
      simp
      exact hid
    simp only [List.countP_append, List.countP_cons, hb2] at hbase
    simp [hb1, he, List.countP_append]
    simp at hbase
    omega

/-- One ledger operation preserves the tally invariant. -/
theorem tallyInv_applyOp (db : DB) (op : LedgerOp) (hInv : tallyInv db)
    (hok : opOk db op = true) : tallyInv (applyOp db op) := by
  cases op with
  | insVote v =>
    unfold applyOp insertVote
    dsimp only
    by_cases hviol : violatesUnique db v = true
    · rw [if_pos hviol]
      exact hInv
    · rw [if_neg hviol]
      exact tallyInv_insert db v hInv
  | delVote v =>
    unfold applyOp deleteVote
    dsimp only
    by_cases hv : v ∈ db.votes
    · rw [if_pos hv]
      exact tallyInv_delete db v hInv hv
    · rw [if_neg hv]
      exact hInv
  | newArtwork id cid =>
    unfold applyOp
    dsimp only
    intro a2 ha2
    simp only at ha2
    rcases List.mem_append.1 ha2 with hold | hnew
    · exact hInv a2 hold
    · unfold opOk at hok
      have hcount : db.votes.countP (fun v => v.artwork_id == id) = 0 := by
        simpa using hok
      have ha2e : a2 = { id := id, contest_id := cid, vote_count := 0 } := by
        simpa using hnew
      subst ha2e
      simpa using hcount.symm

/-- Claim C2: the derived tally never diverges. At every observable point
reached from a consistent store by artwork creations (with the schema
default `vote_count = 0`), vote inserts (the trigger adds exactly 1) and
vote deletes (the trigger subtracts exactly 1), every artwork's stored
`vote_count` equals the number of `votes` rows referencing it. -/
theorem tally_consistency_preserved (db : DB) (ops : List LedgerOp)
    (hInv : tallyInv db) (hok : opsOk db ops = true) :
    tallyInv (ops.foldl applyOp db) := by
  induction ops generalizing db with
  | nil => simpa using hInv
  | cons op ops ih =>
    simp only [List.foldl_cons]
    unfold opsOk at hok
    simp only [Bool.and_eq_true] at hok
    exact ih _ (tallyInv_applyOp db op hInv hok.1) hok.2

/-! ## Concrete instances used by witnesses and counterexamples -/

/-- A concrete contest UUID. -/
def arenaCid : String := "cccccccc-cccc-cccc-cccc-cccccccccccc"

/-- A concrete artwork UUID. -/
def arenaAid : String := "aaaaaaaa-aaaa-aaaa-aaaa-aaaaaaaaaaaa"

/-- Headers with no proxy information. -/
def noHeaders : ReqHeaders :=
  { xForwardedFor := none, xRealIP := none, cfConnectingIP := none, userAgent := none }

/-- An anonymous, well-formed vote request from `ip` at time `t`. -/
def anonReq (ip : String) (t : Int) : Req :=
  { body_artwork_id := some arenaAid, body_contest_id := some arenaCid,
    headers := noHeaders, reqIp := some ip, userId := none, now := t }

/-- An authenticated, well-formed vote request from `ip` at time `t`. -/
def authReq (ip : String) (u : String) (t : Int) : Req :=
  { anonReq ip t with userId := some u }

/-- A store holding one active contest (closing at time 1000) with one
artwork and no votes. -/
def freshDB : DB :=
  { contests := [{ id := arenaCid, status := "active", end_date := 1000 }],
    artworks := [{ id := arenaAid, contest_id := arenaCid, vote_count := 0 }],
    votes := [] }

/-- A fresh system: empty limiter store over `freshDB`. -/
def freshSys : Sys := { rl := [], db := freshDB }

/-! ## Claim C4: voting exactly at the close timestamp -/

/-- Counterexample to claim C4 as stated: a vote request arriving exactly
at the contest's close timestamp (`now = end_date = 1000`) on an Active
contest is accepted with status 200, not rejected — the route's ended
check `end_date < now` is strict. -/
theorem vote_at_end_date_accepted_cex :
    (anonReq "1.2.3.4" 1000).now = (1000 : Int)
    ∧ findContest freshSys.db arenaCid
        = some { id := arenaCid, status := "active", end_date := 1000 }
    ∧ (postVote (anonReq "1.2.3.4" 1000) freshSys).1.success = true
    ∧ (postVote (anonReq "1.2.3.4" 1000) freshSys).1.status = 200 := by
  decide

/-- Claim C4 (amended): a vote request arriving exactly at the close
timestamp (`now = end_date`) of an Active contest is accepted when all
other checks pass; the contest-ended rejection fires only when the
current time is strictly after `end_date`. -/
theorem close_boundary_vote_accepted
    (req : Req) (sys : Sys) (aid cid : String) (c : Contest) (aw : Artwork)
    (hA : req.body_artwork_id = some aid) (hC : req.body_contest_id = some cid)
    (hua : uuidOk aid = true) (huc : uuidOk cid = true)
    (hadm : (rlLimit voteRateLimitCfg sys.rl
        (getVoteRateLimitKey (getClientIP req) cid) req.now).1.success = true)
    (hnv : has_user_voted sys.db cid req.userId (some (reqIpHash req)) = false)
    (hfc : findContest sys.db cid = some c) (hact : c.status = "active")
    (heq : c.end_date = req.now)
    (hfa : findArtwork sys.db aid = some aw) (hawc : aw.contest_id = cid)
    (hins : violatesUnique sys.db (mkVote req) = false) :
    ((postVote req sys).1.success = true ∧ (postVote req sys).1.status = 200)
    ∧ ∀ (req2 : Req) (sys2 : Sys) (aid2 cid2 : String) (c2 : Contest),
        req2.body_artwork_id = some aid2 → req2.body_contest_id = some cid2 →
        uuidOk aid2 = true → uuidOk cid2 = true →
        (rlLimit voteRateLimitCfg sys2.rl
          (getVoteRateLimitKey (getClientIP req2) cid2) req2.now).1.success = true →
        has_user_voted sys2.db cid2 req2.userId (some (reqIpHash req2)) = false →
        findContest sys2.db cid2 = some c2 → c2.status = "active" →
        c2.end_date < req2.now →
        (postVote req2 sys2).1.status = 400 ∧
        (postVote req2 sys2).1.error = some "This contest has ended" := by
  constructor
  · have h1 : (aid == "") = false := uuidOk_ne_empty hua
    have h2 : (cid == "") = false := uuidOk_ne_empty huc
    rcases hrl : rlLimit voteRateLimitCfg sys.rl
        (getVoteRateLimitKey (getClientIP req) cid) req.now with ⟨lr, rl2⟩
    rw [hrl] at hadm
    replace hadm : lr.success = true := hadm
    simp [postVote, insertVote, hA, hC, h1, h2, hua, huc, hrl, hadm, hnv, hfc, hact,
      heq, hfa, hawc, hins]
  · intro req2 sys2 aid2 cid2 c2 hA2 hC2 hua2 huc2 hadm2 hnv2 hfc2 hact2 hlt2
    have h1 : (aid2 == "") = false := uuidOk_ne_empty hua2
    have h2 : (cid2 == "") = false := uuidOk_ne_empty huc2
    rcases hrl2 : rlLimit voteRateLimitCfg sys2.rl
        (getVoteRateLimitKey (getClientIP req2) cid2) req2.now with ⟨lr2, rla⟩
    rw [hrl2] at hadm2
    replace hadm2 : lr2.success = true := hadm2
    constructor <;>
      simp [postVote, hA2, hC2, h1, h2, hua2, huc2, hrl2, hadm2, hnv2, hfc2, hact2, hlt2]

/-- Witness: the amended C4 theorem at the concrete boundary input. -/
theorem close_boundary_vote_accepted_witness :
    (postVote (anonReq "1.2.3.4" 1000) freshSys).1.success = true :=
  (close_boundary_vote_accepted (anonReq "1.2.3.4" 1000) freshSys arenaAid arenaCid
    { id := arenaCid, status := "active", end_date := 1000 }
    { id := arenaAid, contest_id := arenaCid, vote_count := 0 }
    (by decide) (by decide) (by decide) (by decide) (by decide) (by decide)
    (by decide) (by decide) (by decide) (by decide) (by decide) (by decide)).1.1

/-! ## Claim C5: what the advisory check verifies for authenticated voters -/

/-- A store like `freshDB` but already holding one anonymous vote from the
hash of address 1.2.3.4. -/
def anonVotedDB : DB :=
  { contests := [{ id := arenaCid, status := "active", end_date := 1000 }],
    artworks := [{ id := arenaAid, contest_id := arenaCid, vote_count := 1 }],
    votes := [{ artwork_id := arenaAid, contest_id := arenaCid, user_id := none,
                ip_hash := hashIP "1.2.3.4", user_agent := none }] }

/-- Fresh limiter over `anonVotedDB`. -/
def anonVotedSys : Sys := { rl := [], db := anonVotedDB }

/-- Counterexample to claim C5 as stated: a prior (addressHash, contestId)
vote exists, yet the advisory check for an authenticated request returns
false (it does not verify the address condition), so the request is not
rejected before the ledger write: it reaches the insert and only the
unique constraint rejects it. -/
theorem advisory_misses_ip_vote_cex :
    has_user_voted anonVotedSys.db arenaCid (some "user-1") (some (hashIP "1.2.3.4")) = false
    ∧ anonVotedSys.db.votes.countP
        (fun v => v.contest_id == arenaCid && v.ip_hash == hashIP "1.2.3.4") = 1
    ∧ (postVote (authReq "1.2.3.4" "user-1" 500) anonVotedSys).1.status = 409
    ∧ Effect.dbInsert ∈ (postVote (authReq "1.2.3.4" "user-1" 500) anonVotedSys).2.2 := by
  decide

/-- Claim C5 (amended): for a vote request carrying an authenticated
account identifier the advisory eligibility check verifies only that no
prior Vote exists for (accountId, contestId); a prior Vote for
(addressHash, contestId) alone passes the advisory check and the request
is rejected as already-voted (409) only at the ledger write, by the
storage-level unique constraint, leaving the store unchanged. -/
theorem advisory_user_only_ip_caught_at_write
    (req : Req) (sys : Sys) (aid cid u : String) (c : Contest) (aw : Artwork) (w : Vote)
    (hu : req.userId = some u)
    (hA : req.body_artwork_id = some aid) (hC : req.body_contest_id = some cid)
    (hua : uuidOk aid = true) (huc : uuidOk cid = true)
    (hadm : (rlLimit voteRateLimitCfg sys.rl
        (getVoteRateLimitKey (getClientIP req) cid) req.now).1.success = true)
    (hnouser : sys.db.votes.countP
        (fun v => v.contest_id == cid && v.user_id == some u) = 0)
    (hw : w ∈ sys.db.votes) (hwip : w.ip_hash = reqIpHash req) (hwc : w.contest_id = cid)
    (hfc : findContest sys.db cid = some c) (hact : c.status = "active")
    (hne : ¬ c.end_date < req.now)
    (hfa : findArtwork sys.db aid = some aw) (hawc : aw.contest_id = cid) :
    has_user_voted sys.db cid req.userId (some (reqIpHash req)) = false
    ∧ (postVote req sys).1.status = 409
    ∧ (postVote req sys).1.error = some "You have already voted on this contest"
    ∧ Effect.dbInsert ∈ (postVote req sys).2.2
    ∧ (postVote req sys).2.1.db = sys.db := by
  have hcid : reqCid req = cid := by simp [reqCid, hC]
  have hnv : has_user_voted sys.db cid req.userId (some (reqIpHash req)) = false := by
    rw [hu]
    unfold has_user_voted
    simp [hnouser]
  have hviol : violatesUnique sys.db (mkVote req) = true := by
    unfold violatesUnique violatesUniqueL
    have hany : sys.db.votes.any
        (fun w2 => w2.ip_hash == (mkVote req).ip_hash
          && w2.contest_id == (mkVote req).contest_id) = true := by
      apply List.any_eq_true.2
      refine ⟨w, hw, ?_⟩
      simp [mkVote, hwip, hwc, hcid]
    simp [hany]
  have h1 : (aid == "") = false := uuidOk_ne_empty hua
  have h2 : (cid == "") = false := uuidOk_ne_empty huc
  rcases hrl : rlLimit voteRateLimitCfg sys.rl
      (getVoteRateLimitKey (getClientIP req) cid) req.now with ⟨lr, rl2⟩
  rw [hrl] at hadm
  replace hadm : lr.success = true := hadm
  refine ⟨hnv, ?_, ?_, ?_, ?_⟩ <;>
    simp [postVote, insertVote, hA, hC, h1, h2, hua, huc, hrl, hadm, hnv, hfc, hact,
      hne, hfa, hawc, hviol]

/-- Witness: the amended C5 theorem at the concrete input of the
counterexample store. -/
theorem advisory_user_only_ip_caught_at_write_witness :
    (postVote (authReq "1.2.3.4" "user-9" 500) anonVotedSys).1.status = 409 :=
  (advisory_user_only_ip_caught_at_write (authReq "1.2.3.4" "user-9" 500) anonVotedSys
    arenaAid arenaCid "user-9"
    { id := arenaCid, status := "active", end_date := 1000 }
    { id := arenaAid, contest_id := arenaCid, vote_count := 1 }
    { artwork_id := arenaAid, contest_id := arenaCid, user_id := none,
      ip_hash := hashIP "1.2.3.4", user_agent := none }
    (by decide) (by decide) (by decide) (by decide) (by decide) (by decide)
    (by decide) (by decide) (by decide) (by decide) (by decide) (by decide)
    (by decide) (by decide) (by decide)).2.1

/-! ## Claim C6: write-time duplicate rejection matches the advisory one -/

/-- Claim C6: whenever the ledger insert is rejected with the
unique-constraint (duplicate) error, the response carries the same status
(409) and the same user-facing message as an advisory already-voted
rejection issued before any write: the two rejection paths are
indistinguishable in user-facing outcome. Request 1 is rejected by the
advisory check; request 2 passes it and loses at the write. -/
theorem duplicate_insert_matches_advisory_response
    (req1 : Req) (sys1 : Sys) (aid1 cid1 : String)
    (req2 : Req) (sys2 : Sys) (aid2 cid2 : String) (c2 : Contest) (aw2 : Artwork)
    (hA1 : req1.body_artwork_id = some aid1) (hC1 : req1.body_contest_id = some cid1)
    (hua1 : uuidOk aid1 = true) (huc1 : uuidOk cid1 = true)
    (hadm1 : (rlLimit voteRateLimitCfg sys1.rl
        (getVoteRateLimitKey (getClientIP req1) cid1) req1.now).1.success = true)
    (hnv1 : has_user_voted sys1.db cid1 req1.userId (some (reqIpHash req1)) = true)
    (hA2 : req2.body_artwork_id = some aid2) (hC2 : req2.body_contest_id = some cid2)
    (hua2 : uuidOk aid2 = true) (huc2 : uuidOk cid2 = true)
    (hadm2 : (rlLimit voteRateLimitCfg sys2.rl
        (getVoteRateLimitKey (getClientIP req2) cid2) req2.now).1.success = true)
    (hnv2 : has_user_voted sys2.db cid2 req2.userId (some (reqIpHash req2)) = false)
    (hfc2 : findContest sys2.db cid2 = some c2) (hact2 : c2.status = "active")
    (hne2 : ¬ c2.end_date < req2.now)
    (hfa2 : findArtwork sys2.db aid2 = some aw2) (hawc2 : aw2.contest_id = cid2)
    (hviol2 : violatesUnique sys2.db (mkVote req2) = true) :
    (postVote req1 sys1).1.status = 409
    ∧ (postVote req2 sys2).1.status = 409
    ∧ (postVote req1 sys1).1.error = some "You have already voted on this contest"
    ∧ (postVote req1 sys1).1.error = (postVote req2 sys2).1.error := by
  have h11 : (aid1 == "") = false := uuidOk_ne_empty hua1
  have h12 : (cid1 == "") = false := uuidOk_ne_empty huc1
  have h21 : (aid2 == "") = false := uuidOk_ne_empty hua2
  have h22 : (cid2 == "") = false := uuidOk_ne_empty huc2
  rcases hrl1 : rlLimit voteRateLimitCfg sys1.rl
      (getVoteRateLimitKey (getClientIP req1) cid1) req1.now with ⟨lr1, rla1⟩
  rw [hrl1] at hadm1
  replace hadm1 : lr1.success = true := hadm1
  rcases hrl2 : rlLimit voteRateLimitCfg sys2.rl
      (getVoteRateLimitKey (getClientIP req2) cid2) req2.now with ⟨lr2, rla2⟩
  rw [hrl2] at hadm2
  replace hadm2 : lr2.success = true := hadm2
  refine ⟨?_, ?_, ?_, ?_⟩ <;>
    simp [postVote, insertVote, hA1, hC1, h11, h12, hua1, huc1, hrl1, hadm1, hnv1,
      hA2, hC2, h21, h22, hua2, huc2, hrl2, hadm2, hnv2, hfc2, hact2, hne2,
      hfa2, hawc2, hviol2]

/-- Witness: the C6 theorem on the concrete store that already holds an
anonymous vote: request 1 (same address, anonymous) is rejected by the
advisory check, request 2 (authenticated, same address) loses at the
write; the responses agree. -/
theorem duplicate_insert_matches_advisory_response_witness :
    (postVote (anonReq "1.2.3.4" 500) anonVotedSys).1.error
      = (postVote (authReq "1.2.3.4" "user-7" 500) anonVotedSys).1.error :=
  (duplicate_insert_matches_advisory_response
    (anonReq "1.2.3.4" 500) anonVotedSys arenaAid arenaCid
    (authReq "1.2.3.4" "user-7" 500) anonVotedSys arenaAid arenaCid
    { id := arenaCid, status := "active", end_date := 1000 }
    { id := arenaAid, contest_id := arenaCid, vote_count := 1 }
    (by decide) (by decide) (by decide) (by decide) (by decide) (by decide)
    (by decide) (by decide) (by decide) (by decide) (by decide) (by decide)
    (by decide) (by decide) (by decide) (by decide) (by decide) (by decide)).2.2.2

/-! ## Claim C7: the limiter short-circuits before any database access -/

/-- Claim C7: for every vote request, a rate-limited (429) outcome is
produced with the limiter check as the only storage effect and the
database untouched, and whenever any storage effect occurs at all, the
first one is the limiter check — every database access is preceded by the
rate-limit check. -/
theorem limiter_first_no_db_on_429 (req : Req) (sys : Sys) :
    ((postVote req sys).1.status = 429 →
      (postVote req sys).2.2 = [Effect.rlCheck] ∧ (postVote req sys).2.1.db = sys.db)
    ∧ ((postVote req sys).2.2 ≠ [] →
      (postVote req sys).2.2.head? = some Effect.rlCheck) := by
  unfold postVote
  repeat' split
  all_goals simp_all

/-- A limiter store that already holds an admitted event for the vote key
of address 1.2.3.4 on the arena contest, over the fresh database. -/
def limitedSys : Sys :=
  { rl := [(getVoteRateLimitKey "1.2.3.4" arenaCid, 400)], db := freshDB }

/-- Witness: a concretely rate-limited request performs only the limiter
check and leaves the database untouched. -/
theorem limiter_first_no_db_on_429_witness :
    (postVote (anonReq "1.2.3.4" 500) limitedSys).2.2 = [Effect.rlCheck]
    ∧ (postVote (anonReq "1.2.3.4" 500) limitedSys).2.1.db = limitedSys.db :=
  (limiter_first_no_db_on_429 (anonReq "1.2.3.4" 500) limitedSys).1 (by decide)

/-! ## Claim C8: the quota is consumed even on later rejection -/

/-- Claim C8: every request that passes structural validation and is
admitted by the rate limiter has its admission recorded in the limiter
store — whatever the final outcome, including every subsequent
eligibility rejection — and no step of any request ever removes an event
from the limiter store, so the consumed quota is never rolled back. -/
theorem quota_consumed_not_rolled_back
    (req : Req) (sys : Sys) (aid cid : String)
    (hA : req.body_artwork_id = some aid) (hC : req.body_contest_id = some cid)
    (hua : uuidOk aid = true) (huc : uuidOk cid = true)
    (hadm : (rlLimit voteRateLimitCfg sys.rl
        (getVoteRateLimitKey (getClientIP req) cid) req.now).1.success = true) :
    (postVote req sys).2.1.rl
      = (getVoteRateLimitKey (getClientIP req) cid, req.now) :: sys.rl
    ∧ ∀ (r : Req) (p : Phase) (s : Sys), ∀ e ∈ s.rl, e ∈ (stepVote r p s).2.rl := by
  constructor
  · have h1 : (aid == "") = false := uuidOk_ne_empty hua
    have h2 : (cid == "") = false := uuidOk_ne_empty huc
    have hst := rlLimit_success_state hadm
    rcases hrl : rlLimit voteRateLimitCfg sys.rl
        (getVoteRateLimitKey (getClientIP req) cid) req.now with ⟨lr, rl2⟩
    rw [hrl] at hadm hst
    replace hadm : lr.success = true := hadm
    replace hst : rl2 = (getVoteRateLimitKey (getClientIP req) cid, req.now) :: sys.rl := hst
    simp only [postVote, hA, hC]
    simp only [h1, h2, hua, huc, hrl]
    simp only [Bool.or_self, Bool.and_self, Bool.not_true, Bool.false_eq_true, if_false,
      hadm, if_true]
    repeat' split
    all_goals simp [hst]
  · intro r p s e he
    cases p with
    | start =>
      unfold stepVote
      cases hba : r.body_artwork_id with
      | none => exact he
      | some aid2 =>
        cases hbc : r.body_contest_id with
        | none => exact he
        | some cid2 =>
          dsimp only
          split
          · exact he
          · split
            · exact he
            · rcases hrl : rlLimit voteRateLimitCfg s.rl
                  (getVoteRateLimitKey (getClientIP r) cid2) r.now with ⟨lr, rl2⟩
              have hmono := rlLimit_state_mono voteRateLimitCfg s.rl
                (getVoteRateLimitKey (getClientIP r) cid2) r.now e he
              rw [hrl] at hmono
              split <;> exact hmono
    | limited lr =>
      unfold stepVote
      dsimp only
      split <;> exact he
    | checkedDup lr =>
      unfold stepVote
      dsimp only
      repeat' split
      all_goals exact he
    | checkedContest lr =>
      unfold stepVote
      dsimp only
      repeat' split
      all_goals exact he
    | checkedArtwork lr =>
      unfold stepVote
      dsimp only
      repeat' split
      all_goals exact he
    | inserted lr =>
      exact he
    | done r0 =>
      exact he

/-- Witness: a request rejected as already-voted still keeps its consumed
quota recorded in the limiter store. -/
theorem quota_consumed_not_rolled_back_witness :
    (postVote (anonReq "1.2.3.4" 500) anonVotedSys).2.1.rl
      = (getVoteRateLimitKey (getClientIP (anonReq "1.2.3.4" 500)) arenaCid,
          (500 : Int)) :: anonVotedSys.rl :=
  (quota_consumed_not_rolled_back (anonReq "1.2.3.4" 500) anonVotedSys arenaAid arenaCid
    (by decide) (by decide) (by decide) (by decide) (by decide)).1

/-! ## Claim C9: the vote limiter quota is shared per resolved identity -/

/-- Claim C9: two vote requests that resolve to the same voter identity
(spec 4.1: same optional account id and same address hash) for the same
contest produce the same vote rate-limit key, and they share one
sliding-window quota: once the first is admitted at `t1`, the second is
denied at any `t2` within the same rolling window. -/
theorem vote_limiter_shared_quota_per_identity
    (r1 r2 : Req) (cid : String)
    (hid : resolveIdentity r1 = resolveIdentity r2) :
    getVoteRateLimitKey (getClientIP r1) cid = getVoteRateLimitKey (getClientIP r2) cid
    ∧ ∀ (st : RLState) (t1 t2 : Int),
        (rlLimit voteRateLimitCfg st
          (getVoteRateLimitKey (getClientIP r1) cid) t1).1.success = true →
        t1 ≤ t2 → t2 - voteRateLimitCfg.windowMs < t1 →
        (rlLimit voteRateLimitCfg
            ((rlLimit voteRateLimitCfg st (getVoteRateLimitKey (getClientIP r1) cid) t1).2)
            (getVoteRateLimitKey (getClientIP r2) cid) t2).1.success = false := by
  have hip : getClientIP r1 = getClientIP r2 := by
    have hh : reqIpHash r1 = reqIpHash r2 := congrArg VoterIdentity.addressHash hid
    exact hashIP_inj hh
  have hkey : getVoteRateLimitKey (getClientIP r1) cid
      = getVoteRateLimitKey (getClientIP r2) cid := by rw [hip]
  refine ⟨hkey, ?_⟩
  intro st t1 t2 hadm hle hwin
  rw [← hkey]
  rw [rlLimit_success_state hadm]
  have hlen : 1 ≤ (windowEvents voteRateLimitCfg
      ((getVoteRateLimitKey (getClientIP r1) cid, t1) :: st)
      (getVoteRateLimitKey (getClientIP r1) cid) t2).length := by
    unfold windowEvents
    have hpred : ((getVoteRateLimitKey (getClientIP r1) cid, t1).1
          == getVoteRateLimitKey (getClientIP r1) cid
        && decide (t2 - voteRateLimitCfg.windowMs < (getVoteRateLimitKey (getClientIP r1) cid, t1).2)
        && decide ((getVoteRateLimitKey (getClientIP r1) cid, t1).2 ≤ t2)) = true := by
      simp [hwin, hle]
    rw [List.filter_cons]
    rw [hpred]
    simp
  rcases hsucc : (rlLimit voteRateLimitCfg
      ((getVoteRateLimitKey (getClientIP r1) cid, t1) :: st)
      (getVoteRateLimitKey (getClientIP r1) cid) t2).1.success with _ | _
  · rfl
  · exfalso
    have hlt := rlLimit_success_iff.1 hsucc
    have htok : voteRateLimitCfg.tokens = 1 := rfl
    omega

/-- A second request with the same resolved identity as
`anonReq "5.5.5.5" 200` but different metadata. -/
def sameIdentityReq : Req :=
  { anonReq "5.5.5.5" 200 with headers := { noHeaders with userAgent := some "ua-2" } }

/-- Witness: the C9 theorem at two concrete same-identity requests — the
second limiter call within the window is denied. -/
theorem vote_limiter_shared_quota_per_identity_witness :
    (rlLimit voteRateLimitCfg
        ((rlLimit voteRateLimitCfg []
          (getVoteRateLimitKey (getClientIP (anonReq "5.5.5.5" 100)) arenaCid) 100).2)
        (getVoteRateLimitKey (getClientIP sameIdentityReq) arenaCid) 200).1.success = false :=
  (vote_limiter_shared_quota_per_identity (anonReq "5.5.5.5" 100) sameIdentityReq arenaCid
    (by decide)).2 [] 100 200 (by decide) (by decide) (by decide)

/-! ## Claim C10: the general API limiter -/

/-- Claim C10: the repository configures a separate general-API limiter of
100 requests per rolling minute keyed by client IP (`apiRateLimit`,
`getApiRateLimitKey`); when 100 admitted calls already lie in the rolling
minute of a key, the next (101st) call is rejected as rate-limited with
`remaining = 0` and a `reset` strictly in the future. -/
theorem api_limit_101st_denied (st : RLState) (ip : String) (now : Int)
    (h : 100 ≤ (windowEvents apiRateLimitCfg st (getApiRateLimitKey ip) now).length) :
    apiRateLimitCfg.tokens = 100
    ∧ apiRateLimitCfg.windowMs = 60000
    ∧ (rlLimit apiRateLimitCfg st (getApiRateLimitKey ip) now).1.success = false
    ∧ (rlLimit apiRateLimitCfg st (getApiRateLimitKey ip) now).1.remaining = 0
    ∧ now < (rlLimit apiRateLimitCfg st (getApiRateLimitKey ip) now).1.reset := by
  have hnotlt : ¬ (windowEvents apiRateLimitCfg st
      (getApiRateLimitKey ip) now).length < apiRateLimitCfg.tokens := by
    have htok : apiRateLimitCfg.tokens = 100 := rfl
    omega
  refine ⟨rfl, rfl, ?_, ?_, ?_⟩
  · unfold rlLimit
    rw [if_neg hnotlt]
  · unfold rlLimit
    rw [if_neg hnotlt]
  · unfold rlLimit
    rw [if_neg hnotlt]
    have hne : windowEvents apiRateLimitCfg st (getApiRateLimitKey ip) now ≠ [] := by
      intro hnil
      rw [hnil] at h
      simp at h
    have hbound : now - apiRateLimitCfg.windowMs
        < minTs (windowEvents apiRateLimitCfg st (getApiRateLimitKey ip) now) now :=
      minTs_lb hne (fun y hy => (windowEvents_mem hy).1)
    have hw : apiRateLimitCfg.windowMs = 60000 := rfl
    simp only []
    omega

/-- One hundred admitted API calls of one address, all inside one minute. -/
def apiBurst (ip : String) : RLState :=
  List.replicate 100 (getApiRateLimitKey ip, (5 : Int))

/-- Witness: the C10 theorem at a concrete store holding a full window. -/
theorem api_limit_101st_denied_witness :
    (rlLimit apiRateLimitCfg (apiBurst "7.7.7.7") (getApiRateLimitKey "7.7.7.7") 5).1.success = false
    ∧ (rlLimit apiRateLimitCfg (apiBurst "7.7.7.7") (getApiRateLimitKey "7.7.7.7") 5).1.remaining = 0
    ∧ (5 : Int) < (rlLimit apiRateLimitCfg (apiBurst "7.7.7.7") (getApiRateLimitKey "7.7.7.7") 5).1.reset := by
  have h := api_limit_101st_denied (apiBurst "7.7.7.7") "7.7.7.7" 5 (by decide)
  exact ⟨h.2.2.1, h.2.2.2.1, h.2.2.2.2⟩

/-! ## Claim C3: where the returned voteCount comes from -/

/-- Two anonymous requests from different addresses voting on the same
artwork of the same contest. -/
def c3reqs : List Req := [anonReq "9.9.9.1" 500, anonReq "9.9.9.2" 500]

/-- Interleaving: request 0 runs up to and including its ledger insert,
then request 1 runs to completion, then request 0 performs its follow-up
`vote_count` read and responds. -/
def c3sched : List Nat := [0, 0, 0, 0, 0, 1, 1, 1, 1, 1, 1, 0]

/-- Counterexample to claim C3 as stated: request 0's insert produced the
tally 1, but because the response's `voteCount` is obtained by a separate
follow-up query rather than a read-after-write inside the insert's
transaction, request 0 returns `voteCount = 2` after request 1 commits
between the two queries — not the tally produced by its own insert. -/
theorem vote_count_not_same_transaction_cex :
    ((runSched c3reqs [0, 0, 0, 0, 0] (freshSys, initPhases c3reqs)).1.db.artworks.map
        Artwork.vote_count) = [1]
    ∧ ((runSched c3reqs c3sched (freshSys, initPhases c3reqs)).2.map doneVoteCount)
        = [some 2, some 2] := by
  decide

/-- The trigger increment as seen by a `find?` on the artworks table. -/
theorem findArtwork_after_trigger (arts : List Artwork) (aid : String) (aw : Artwork)
    (hfa : arts.find? (fun a => a.id == aid) = some aw) :
    (arts.map (fun a =>
        if a.id == aid then { a with vote_count := a.vote_count + 1 } else a)).find?
      (fun a => a.id == aid)
      = some { aw with vote_count := aw.vote_count + 1 } := by
  have hfpres : ∀ a : Artwork,
      ((fun a => if a.id == aid then { a with vote_count := a.vote_count + 1 } else a) a).id
        = a.id := by
    intro a
    by_cases h : (a.id == aid) = true <;> simp [h]
  rw [find_map_id_pres arts aid _ hfpres, hfa]
  have hid := List.find?_some (p := fun a : Artwork => a.id == aid) hfa
  simp only [Option.map_some']
  simp at hid
  simp [hid]

/-- The success path of `postVote` as one equation, with the inserted
store abstracted by `db2`. -/
theorem postVote_success_eq
    (req : Req) (sys : Sys) (aid cid : String) (c : Contest) (aw : Artwork)
    (lr : LimitResult) (rl2 : RLState) (db2 : DB)
    (hA : req.body_artwork_id = some aid) (hC : req.body_contest_id = some cid)
    (hua : uuidOk aid = true) (huc : uuidOk cid = true)
    (hrl : rlLimit voteRateLimitCfg sys.rl
        (getVoteRateLimitKey (getClientIP req) cid) req.now = (lr, rl2))
    (hs : lr.success = true)
    (hnv : has_user_voted sys.db cid req.userId (some (reqIpHash req)) = false)
    (hfc : findContest sys.db cid = some c) (hact : c.status = "active")
    (hne : ¬ c.end_date < req.now)
    (hfa : findArtwork sys.db aid = some aw) (hawc : aw.contest_id = cid)
    (hdb2 : insertVote sys.db (mkVote req) = Except.ok db2) :
    postVote req sys =
      ({ status := 200, success := true,
         voteCount := some (((findArtwork db2 aid).map Artwork.vote_count).getD 0),
         remaining := some ((lr.remaining : Int) - 1) },
       { rl := rl2, db := db2 },
       [Effect.rlCheck, Effect.dbReadDup, Effect.dbReadContest,
        Effect.dbReadArtwork, Effect.dbInsert, Effect.dbReadCount]) := by
  have h1 : (aid == "") = false := uuidOk_ne_empty hua
  have h2 : (cid == "") = false := uuidOk_ne_empty huc
  simp [postVote, hA, hC, h1, h2, hua, huc, hrl, hs, hnv, hfc, hact, hne, hfa, hawc, hdb2]

/-- Claim C3 (amended): on success the returned `voteCount` comes from a
separate follow-up read of the artwork row issued after the insert (not a
read-after-write inside the insert's transaction): when no other write
intervenes between the insert and the read — in particular in any
uninterleaved execution — it equals the tally produced by that vote's
insert, the previous tally plus one. -/
theorem success_vote_count_follow_up_read
    (req : Req) (sys : Sys) (aid cid : String) (c : Contest) (aw : Artwork)
    (hA : req.body_artwork_id = some aid) (hC : req.body_contest_id = some cid)
    (hua : uuidOk aid = true) (huc : uuidOk cid = true)
    (hadm : (rlLimit voteRateLimitCfg sys.rl
        (getVoteRateLimitKey (getClientIP req) cid) req.now).1.success = true)
    (hnv : has_user_voted sys.db cid req.userId (some (reqIpHash req)) = false)
    (hfc : findContest sys.db cid = some c) (hact : c.status = "active")
    (hne : ¬ c.end_date < req.now)
    (hfa : findArtwork sys.db aid = some aw) (hawc : aw.contest_id = cid)
    (hins : violatesUnique sys.db (mkVote req) = false) :
    (postVote req sys).1.success = true
    ∧ (postVote req sys).1.voteCount = some (aw.vote_count + 1)
    ∧ findArtwork (postVote req sys).2.1.db aid
        = some { aw with vote_count := aw.vote_count + 1 } := by
  rcases hrl : rlLimit voteRateLimitCfg sys.rl
      (getVoteRateLimitKey (getClientIP req) cid) req.now with ⟨lr, rl2⟩
  rw [hrl] at hadm
  replace hadm : lr.success = true := hadm
  have haidv : (mkVote req).artwork_id = aid := by simp [mkVote, reqAid, hA]
  have hdb2 : insertVote sys.db (mkVote req) = Except.ok
      { sys.db with
        votes := mkVote req :: sys.db.votes,
        artworks := sys.db.artworks.map (fun a =>
          if a.id == (mkVote req).artwork_id then
            { a with vote_count := a.vote_count + 1 } else a) } := by
    unfold insertVote
    rw [hins]
    simp
  have hpv := postVote_success_eq req sys aid cid c aw lr rl2 _
    hA hC hua huc hrl hadm hnv hfc hact hne hfa hawc hdb2
  have hfA : findArtwork
      { sys.db with
        votes := mkVote req :: sys.db.votes,
        artworks := sys.db.artworks.map (fun a =>
          if a.id == (mkVote req).artwork_id then
            { a with vote_count := a.vote_count + 1 } else a) } aid
      = some { aw with vote_count := aw.vote_count + 1 } := by
    unfold findArtwork
    dsimp only
    rw [haidv]
    exact findArtwork_after_trigger sys.db.artworks aid aw hfa
  rw [hpv]
  refine ⟨rfl, ?_, ?_⟩
  · dsimp only
    rw [hfA]
    rfl
  · dsimp only
    exact hfA

/-- Witness: the amended C3 theorem at a concrete fresh store: the
returned tally is the previous tally plus one. -/
theorem success_vote_count_follow_up_read_witness :
    (postVote (anonReq "1.2.3.4" 500) freshSys).1.voteCount = some 1 :=
  (success_vote_count_follow_up_read (anonReq "1.2.3.4" 500) freshSys arenaAid arenaCid
    { id := arenaCid, status := "active", end_date := 1000 }
    { id := arenaAid, contest_id := arenaCid, vote_count := 0 }
    (by decide) (by decide) (by decide) (by decide) (by decide) (by decide)
    (by decide) (by decide) (by decide) (by decide) (by decide) (by decide)).2.1

/-! ## Claim C1: concurrent same-identity submissions

The race setup: a batch of well-formed requests, all naming the same
contest and artwork and all resolving to the same voter identity, run
against a store in which that contest is active and open for each
request's clock, the artwork belongs to it, no conflicting vote exists
yet, and the limiter store is empty. -/

/-- A batch of racing same-identity vote submissions. -/
structure VoteRace where
  reqs : List Req
  sys0 : Sys
  cid : String
  aid : String
  c : Contest
  a : Artwork
  hne : reqs ≠ []
  hbody : ∀ r ∈ reqs, r.body_artwork_id = some aid ∧ r.body_contest_id = some cid
  haid : uuidOk aid = true
  hcid : uuidOk cid = true
  hident : ∀ r ∈ reqs, ∀ r2 ∈ reqs, resolveIdentity r = resolveIdentity r2
  hclean : ∀ r ∈ reqs, violatesUniqueL sys0.db.votes (mkVote r) = false
  hcleanUser : ∀ r ∈ reqs, r.userId.isSome = true →
    sys0.db.votes.countP (fun v => v.contest_id == cid && v.user_id == r.userId) = 0
  hcleanIp : ∀ r ∈ reqs,
    sys0.db.votes.countP (fun v => v.contest_id == cid && v.ip_hash == reqIpHash r) = 0
  hrl0 : sys0.rl = []
  hfc : findContest sys0.db cid = some c
  hact : c.status = "active"
  hopen : ∀ r ∈ reqs, ¬ c.end_date < r.now
  hfa : findArtwork sys0.db aid = some a
  hawc : a.contest_id = cid

/-- The race invariant over a reachable configuration: the new votes `nv`
laid down so far are at most one, each belongs to one of the racing
requests, the tally was bumped once per new vote, the limiter store holds
one event per admitted request, finished requests carry only the three
reachable outcomes, a 409 outcome implies a recorded vote, and a 429
outcome implies a nonempty limiter store. -/
def RaceInv (S : VoteRace) (sys : Sys) (ps : List Phase) : Prop :=
  ∃ nv : List Vote,
    sys.db.votes = nv ++ S.sys0.db.votes
    ∧ (∀ v ∈ nv, ∃ r ∈ S.reqs, v = mkVote r)
    ∧ nv.length = ps.countP isWinner
    ∧ nv.length ≤ 1
    ∧ sys.db.contests = S.sys0.db.contests
    ∧ sys.db.artworks = bumpArtworks S.sys0.db.artworks S.aid nv.length
    ∧ sys.rl.length = ps.countP isAdmitted
    ∧ (∀ p ∈ ps, ∀ resp, p = Phase.done resp →
        resp.success = true ∨ resp.status = 409 ∨ resp.status = 429)
    ∧ (ps.countP is409Done ≠ 0 → nv ≠ [])
    ∧ (ps.countP is429Done ≠ 0 → sys.rl ≠ [])

/-- The race invariant holds initially. -/
theorem raceInv_init (S : VoteRace) : RaceInv S S.sys0 (initPhases S.reqs) := by
  have hz : ∀ (f : Phase → Bool), f Phase.start = false →
      (initPhases S.reqs).countP f = 0 := by
    intro f hf
    apply List.countP_eq_zero.2
    intro p hp
    have := List.eq_of_mem_replicate hp
    rw [this, hf]
    simp
  refine ⟨[], by simp, by simp, ?_, by simp, rfl, (bumpArtworks_zero _ _).symm, ?_, ?_, ?_, ?_⟩
  · rw [hz isWinner rfl]
    rfl
  · rw [hz isAdmitted rfl, S.hrl0]
    rfl
  · intro p hp resp hdone
    have := List.eq_of_mem_replicate hp
    rw [this] at hdone
    exact absurd hdone (by simp)
  · rw [hz is409Done rfl]
    intro hcontra
    exact absurd rfl hcontra
  · rw [hz is429Done rfl]
    intro hcontra
    exact absurd rfl hcontra

/-- Updating one phase preserves the finished-outcome classification when
the new phase satisfies it. -/
theorem statuses_set (P : ApiResponse → Prop) (ps : List Phase) (i : Nat) (p2 : Phase)
    (hstat : ∀ p ∈ ps, ∀ resp, p = Phase.done resp → P resp)
    (hp2 : ∀ resp, p2 = Phase.done resp → P resp) :
    ∀ p ∈ ps.set i p2, ∀ resp, p = Phase.done resp → P resp := by
  intro p hp resp hdone
  rcases List.mem_or_eq_of_mem_set hp with h | h
  · exact hstat p h resp hdone
  · rw [h] at hdone
    exact hp2 resp hdone

/-- Membership from an indexed lookup. -/
theorem mem_of_getElem {α : Type} {l : List α} {i : Nat} {x : α} (h : l[i]? = some x) :
    x ∈ l := by
  obtain ⟨hlt, hget⟩ := List.getElem?_eq_some_iff.1 h
  rw [← hget]
  exact List.getElem_mem hlt

/-- The outcome-classification component of the race invariant. -/
theorem raceInv_statuses (S : VoteRace) (sys : Sys) (ps : List Phase)
    (hInv : RaceInv S sys ps) :
    ∀ p ∈ ps, ∀ resp, p = Phase.done resp →
      resp.success = true ∨ resp.status = 409 ∨ resp.status = 429 := by
  obtain ⟨_, _, _, _, _, _, _, _, hstat, _, _⟩ := hInv
  exact hstat

/-- A step that changes neither the shared state nor any of the counted
phase classes preserves the race invariant. -/
theorem raceInv_still (S : VoteRace) (sys : Sys) (ps : List Phase) (i : Nat) (p p2 : Phase)
    (hpi : ps[i]? = some p)
    (hW : isWinner p2 = isWinner p) (hAd : isAdmitted p2 = isAdmitted p)
    (h4 : is409Done p2 = is409Done p) (h2 : is429Done p2 = is429Done p)
    (hp2stat : ∀ resp, p2 = Phase.done resp →
      resp.success = true ∨ resp.status = 409 ∨ resp.status = 429)
    (hInv : RaceInv S sys ps) :
    RaceInv S sys (ps.set i p2) := by
  obtain ⟨nv, hv, hsrc, hcnt, hle, hcon, hart, hrlI, hstat, h409, h429⟩ := hInv
  have hWc := countP_set_add isWinner ps i p p2 hpi
  have hAc := countP_set_add isAdmitted ps i p p2 hpi
  have h4c := countP_set_add is409Done ps i p p2 hpi
  have h2c := countP_set_add is429Done ps i p p2 hpi
  rw [hW] at hWc
  rw [hAd] at hAc
  rw [h4] at h4c
  rw [h2] at h2c
  have hWe : (ps.set i p2).countP isWinner = ps.countP isWinner := Nat.add_right_cancel hWc
  have hAe : (ps.set i p2).countP isAdmitted = ps.countP isAdmitted := Nat.add_right_cancel hAc
  have h4e : (ps.set i p2).countP is409Done = ps.countP is409Done := Nat.add_right_cancel h4c
  have h2e : (ps.set i p2).countP is429Done = ps.countP is429Done := Nat.add_right_cancel h2c
  exact ⟨nv, hv, hsrc, by rw [hWe]; exact hcnt, hle, hcon, hart,
    by rw [hAe]; exact hrlI,
    statuses_set _ ps i p2 hstat hp2stat,
    by rw [h4e]; exact h409,
    by rw [h2e]; exact h429⟩

/-- The already-voted response, as both rejection paths of the route
construct it. -/
def alreadyVotedResp : ApiResponse :=
  { status := 409, error := some "You have already voted on this contest" }

/-- A step that finishes an admitted request with the already-voted 409
outcome preserves the race invariant, provided the rejection certifies a
recorded vote. -/
theorem raceInv_409 (S : VoteRace) (sys : Sys) (ps : List Phase) (i : Nat) (p : Phase)
    (hpi : ps[i]? = some p)
    (hW : isWinner p = false) (hAd : isAdmitted p = true)
    (h4 : is409Done p = false) (h2 : is429Done p = false)
    (hInv : RaceInv S sys ps)
    (hne : ∀ nv : List Vote, sys.db.votes = nv ++ S.sys0.db.votes → nv ≠ []) :
    RaceInv S sys (ps.set i (Phase.done alreadyVotedResp)) := by
  obtain ⟨nv, hv, hsrc, hcnt, hle, hcon, hart, hrlI, hstat, h409, h429⟩ := hInv
  have hWc := countP_set_add isWinner ps i p (Phase.done alreadyVotedResp) hpi
  have hAc := countP_set_add isAdmitted ps i p (Phase.done alreadyVotedResp) hpi
  have h4c := countP_set_add is409Done ps i p (Phase.done alreadyVotedResp) hpi
  have h2c := countP_set_add is429Done ps i p (Phase.done alreadyVotedResp) hpi
  rw [hW] at hWc
  rw [hAd] at hAc
  rw [h4] at h4c
  rw [h2] at h2c
  simp only [isWinner, isAdmitted, is409Done, is429Done,
    show alreadyVotedResp.success = false from rfl,
    show alreadyVotedResp.status = 409 from rfl] at hWc hAc h4c h2c
  simp at hWc hAc h4c h2c
  refine ⟨nv, hv, hsrc, ?_, hle, hcon, hart, ?_, ?_, ?_, ?_⟩
  · rw [hWc]
    exact hcnt
  · rw [hAc]
    exact hrlI
  · apply statuses_set _ ps i _ hstat
    intro resp h
    injection h with h
    rw [← h]
    exact Or.inr (Or.inl rfl)

  · intro _
    exact hne nv hv
  · rw [h2c]
    exact h429

/-- The contests table never changes during a race. -/
theorem raceInv_contests (S : VoteRace) (sys : Sys) (ps : List Phase)
    (hInv : RaceInv S sys ps) : sys.db.contests = S.sys0.db.contests := by
  obtain ⟨_, _, _, _, _, hcon, _, _, _, _, _⟩ := hInv
  exact hcon

/-- The artworks table is always a bumped copy of the initial one. -/
theorem raceInv_artworks (S : VoteRace) (sys : Sys) (ps : List Phase)
    (hInv : RaceInv S sys ps) :
    ∃ n : Nat, sys.db.artworks = bumpArtworks S.sys0.db.artworks S.aid n := by
  obtain ⟨nv, _, _, _, _, _, hart, _, _, _, _⟩ := hInv
  exact ⟨nv.length, hart⟩

/-- One scheduled step preserves the race invariant. -/
theorem raceInv_step (S : VoteRace) (sys : Sys) (ps : List Phase) (i : Nat)
    (hInv : RaceInv S sys ps) :
    RaceInv S (schedStep S.reqs (sys, ps) i).1 (schedStep S.reqs (sys, ps) i).2 := by
  unfold schedStep
  dsimp only
  cases hri : S.reqs[i]? with
  | none => exact hInv
  | some r =>
    cases hpi : ps[i]? with
    | none => exact hInv
    | some p =>
      dsimp only
      have hrmem : r ∈ S.reqs := mem_of_getElem hri
      obtain ⟨hbA, hbC⟩ := S.hbody r hrmem
      have hrc : reqCid r = S.cid := by simp [reqCid, hbC]
      have hra : reqAid r = S.aid := by simp [reqAid, hbA]
      rcases hst : stepVote r p sys with ⟨p2, s2⟩
      show RaceInv S s2 (ps.set i p2)
      cases p with
      | start =>
        unfold stepVote at hst
        rw [hbA, hbC] at hst
        dsimp only at hst
        have g1 : (S.aid == "") = false := uuidOk_ne_empty S.haid
        have g2 : (S.cid == "") = false := uuidOk_ne_empty S.hcid
        have hv1 : ¬ ((S.aid == "" || S.cid == "") = true) := by simp [g1, g2]
        rw [if_neg hv1] at hst
        have hv2 : ¬ ((!(uuidOk S.aid && uuidOk S.cid)) = true) := by simp [S.haid, S.hcid]
        rw [if_neg hv2] at hst
        rcases hq : rlLimit voteRateLimitCfg sys.rl
            (getVoteRateLimitKey (getClientIP r) S.cid) r.now with ⟨lr, rl2⟩
        rw [hq] at hst
        dsimp only at hst
        by_cases hsucc : lr.success = true
        · rw [if_pos hsucc] at hst
          injection hst with he1 he2
          subst he1
          subst he2
          have hs' : (rlLimit voteRateLimitCfg sys.rl
              (getVoteRateLimitKey (getClientIP r) S.cid) r.now).1.success = true := by
            rw [hq]
            exact hsucc
          have hrl2 : rl2 = (getVoteRateLimitKey (getClientIP r) S.cid, r.now) :: sys.rl := by
            have h2 := rlLimit_success_state hs'
            rw [hq] at h2
            exact h2
          obtain ⟨nv, hv, hsrc, hcnt, hle, hcon, hart, hrlI, hstat, h409, h429⟩ := hInv
          have hWc := countP_set_add isWinner ps i Phase.start (Phase.limited lr) hpi
          have hAc := countP_set_add isAdmitted ps i Phase.start (Phase.limited lr) hpi
          have h4c := countP_set_add is409Done ps i Phase.start (Phase.limited lr) hpi
          have h2c := countP_set_add is429Done ps i Phase.start (Phase.limited lr) hpi
          simp only [isWinner, isAdmitted, is409Done, is429Done] at hWc hAc h4c h2c
          simp at hWc hAc h4c h2c
          refine ⟨nv, hv, hsrc, ?_, hle, hcon, hart, ?_, ?_, ?_, ?_⟩
          · omega
          · show rl2.length = _
            rw [hrl2]
            simp only [List.length_cons]
            omega
          · apply statuses_set _ ps i _ hstat
            intro resp h
            exact absurd h (by simp)
          · intro hcc
            exact h409 (by omega)
          · intro _
            show rl2 ≠ []
            rw [hrl2]
            exact List.cons_ne_nil _ _
        · rw [if_neg hsucc] at hst
          injection hst with he1 he2
          subst he1
          subst he2
          have hsf : lr.success = false := by
            simpa using hsucc
          have hs' : (rlLimit voteRateLimitCfg sys.rl
              (getVoteRateLimitKey (getClientIP r) S.cid) r.now).1.success = false := by
            rw [hq]
            exact hsf
          have hrl2 : rl2 = sys.rl := by
            have h2 := rlLimit_denied_state hs'
            rw [hq] at h2
            exact h2
          obtain ⟨nv, hv, hsrc, hcnt, hle, hcon, hart, hrlI, hstat, h409, h429⟩ := hInv
          have hWc := countP_set_add isWinner ps i Phase.start (Phase.done { status := 429, error := some (rateLimitedMsg (hoursUntilReset lr.reset r.now)), resetAt := some lr.reset, limit := some lr.limit, remaining := some 0 }) hpi
          have hAc := countP_set_add isAdmitted ps i Phase.start (Phase.done { status := 429, error := some (rateLimitedMsg (hoursUntilReset lr.reset r.now)), resetAt := some lr.reset, limit := some lr.limit, remaining := some 0 }) hpi
          have h4c := countP_set_add is409Done ps i Phase.start (Phase.done { status := 429, error := some (rateLimitedMsg (hoursUntilReset lr.reset r.now)), resetAt := some lr.reset, limit := some lr.limit, remaining := some 0 }) hpi
          have h2c := countP_set_add is429Done ps i Phase.start (Phase.done { status := 429, error := some (rateLimitedMsg (hoursUntilReset lr.reset r.now)), resetAt := some lr.reset, limit := some lr.limit, remaining := some 0 }) hpi
          simp only [isWinner, isAdmitted, is409Done, is429Done] at hWc hAc h4c h2c
          simp at hWc hAc h4c h2c
          refine ⟨nv, hv, hsrc, ?_, hle, hcon, hart, ?_, ?_, ?_, ?_⟩
          · omega
          · show rl2.length = _
            rw [hrl2]
            omega
          · apply statuses_set _ ps i _ hstat
            intro resp h
            injection h with h
            rw [← h]
            exact Or.inr (Or.inr rfl)
          · intro hcc
            exact h409 (by omega)
          · intro _
            show rl2 ≠ []
            rw [hrl2]
            intro hnil
            apply hsucc
            have hlt : (windowEvents voteRateLimitCfg sys.rl
                (getVoteRateLimitKey (getClientIP r) S.cid) r.now).length
                < voteRateLimitCfg.tokens := by
              rw [hnil]
              rw [windowEvents_nil]
              decide
            have hs2 := rlLimit_success_iff.2 hlt
            rw [hq] at hs2
            exact hs2
      | limited lr =>
        unfold stepVote at hst
        dsimp only at hst
        by_cases hhv : has_user_voted sys.db (reqCid r) r.userId (some (reqIpHash r)) = true
        · rw [if_pos hhv] at hst
          injection hst with he1 he2
          subst he1
          subst he2
          have hne : ∀ nv : List Vote, sys.db.votes = nv ++ S.sys0.db.votes → nv ≠ [] := by
            intro nv hv hnil
            rw [hnil] at hv
            simp only [List.nil_append] at hv
            rw [hrc] at hhv
            unfold has_user_voted at hhv
            cases hu : r.userId with
            | some u =>
              rw [hu] at hhv
              dsimp only at hhv
              rw [hv] at hhv
              simp only [decide_eq_true_eq] at hhv
              have hz := S.hcleanUser r hrmem (by rw [hu]; rfl)
              rw [hu] at hz
              omega
            | none =>
              rw [hu] at hhv
              dsimp only at hhv
              rw [hv] at hhv
              simp only [decide_eq_true_eq] at hhv
              have hz := S.hcleanIp r hrmem
              omega
          exact raceInv_409 S sys ps i (Phase.limited lr) hpi rfl rfl rfl rfl hInv hne
        · rw [if_neg hhv] at hst
          injection hst with he1 he2
          subst he1
          subst he2
          exact raceInv_still S sys ps i (Phase.limited lr) (Phase.checkedDup lr) hpi
            rfl rfl rfl rfl (fun resp h => absurd h (by simp)) hInv
      | checkedDup lr =>
        unfold stepVote at hst
        dsimp only at hst
        have hcon := raceInv_contests S sys ps hInv
        have hfcS : findContest sys.db (reqCid r) = some S.c := by
          rw [hrc]
          show sys.db.contests.find? (fun c => c.id == S.cid) = some S.c
          rw [hcon]
          exact S.hfc
        rw [hfcS] at hst
        dsimp only at hst
        have hg1 : ¬ ((S.c.status != "active") = true) := by simp [S.hact]
        rw [if_neg hg1] at hst
        rw [if_neg (S.hopen r hrmem)] at hst
        injection hst with he1 he2
        subst he1
        subst he2
        exact raceInv_still S sys ps i (Phase.checkedDup lr) (Phase.checkedContest lr) hpi
          rfl rfl rfl rfl (fun resp h => absurd h (by simp)) hInv
      | checkedContest lr =>
        unfold stepVote at hst
        dsimp only at hst
        obtain ⟨n, hart⟩ := raceInv_artworks S sys ps hInv
        have hfa2 : S.sys0.db.artworks.find? (fun a => a.id == S.aid) = some S.a := S.hfa
        have haid_eq : (S.a.id == S.aid) = true :=
          List.find?_some (p := fun x : Artwork => x.id == S.aid) hfa2
        have hfaS : findArtwork sys.db (reqAid r)
            = some { S.a with vote_count := S.a.vote_count + n } := by
          rw [hra]
          show sys.db.artworks.find? (fun a => a.id == S.aid) = _
          rw [hart]
          unfold bumpArtworks
          rw [find_map_id_pres _ _ _ (bumpArtworks_id S.aid n), hfa2]
          simp only [Option.map_some']
          rw [if_pos haid_eq]
        rw [hfaS] at hst
        dsimp only at hst
        have hg : ¬ ((({ S.a with vote_count := S.a.vote_count + n } : Artwork).contest_id
            != reqCid r) = true) := by
          simp [S.hawc, hrc]
        rw [if_neg hg] at hst
        injection hst with he1 he2
        subst he1
        subst he2
        exact raceInv_still S sys ps i (Phase.checkedContest lr) (Phase.checkedArtwork lr) hpi
          rfl rfl rfl rfl (fun resp h => absurd h (by simp)) hInv
      | checkedArtwork lr =>
        unfold stepVote at hst
        dsimp only at hst
        by_cases hviol : violatesUnique sys.db (mkVote r) = true
        · have hins : insertVote sys.db (mkVote r) = Except.error DbError.uniqueViolation := by
            unfold insertVote
            rw [if_pos hviol]
          rw [hins] at hst
          dsimp only at hst
          rw [if_pos rfl] at hst
          injection hst with he1 he2
          subst he1
          subst he2
          have hne : ∀ nv : List Vote, sys.db.votes = nv ++ S.sys0.db.votes → nv ≠ [] := by
            intro nv hv hnil
            rw [hnil] at hv
            simp only [List.nil_append] at hv
            unfold violatesUnique at hviol
            rw [hv] at hviol
            have hcl := S.hclean r hrmem
            rw [hviol] at hcl
            simp at hcl
          exact raceInv_409 S sys ps i (Phase.checkedArtwork lr) hpi rfl rfl rfl rfl hInv hne
        · have hins : insertVote sys.db (mkVote r) = Except.ok
              { sys.db with
                votes := mkVote r :: sys.db.votes,
                artworks := sys.db.artworks.map (fun a =>
                  if a.id == (mkVote r).artwork_id then
                    { a with vote_count := a.vote_count + 1 } else a) } := by
            unfold insertVote
            rw [if_neg hviol]
          rw [hins] at hst
          dsimp only at hst
          injection hst with he1 he2
          subst he1
          subst he2
          obtain ⟨nv, hv, hsrc, hcnt, hle, hcon, hart, hrlI, hstat, h409, h429⟩ := hInv
          have hnvnil : nv = [] := by
            rcases nv with _ | ⟨w, nvt⟩
            · rfl
            · exfalso
              obtain ⟨r2, hr2mem, hw⟩ := hsrc w (List.mem_cons_self _ _)
              obtain ⟨hbA2, hbC2⟩ := S.hbody r2 hr2mem
              have hidr := S.hident r hrmem r2 hr2mem
              have hiph : reqIpHash r = reqIpHash r2 :=
                congrArg VoterIdentity.addressHash hidr
              apply hviol
              unfold violatesUnique violatesUniqueL
              have hany : sys.db.votes.any (fun w2 =>
                  w2.ip_hash == (mkVote r).ip_hash
                  && w2.contest_id == (mkVote r).contest_id) = true := by
                apply List.any_eq_true.2
                refine ⟨w, ?_, ?_⟩
                · rw [hv]
                  exact List.mem_append_left _ (List.mem_cons_self _ _)
                · rw [hw]
                  simp [mkVote, reqCid, hbC2, hbC, hiph]
              simp [hany]
          subst hnvnil
          refine ⟨[mkVote r], ?_, ?_, ?_, ?_, ?_, ?_, ?_, ?_, ?_, ?_⟩
          · show mkVote r :: sys.db.votes = [mkVote r] ++ S.sys0.db.votes
            rw [hv]
            simp
          · intro v hv2
            simp only [List.mem_singleton] at hv2
            exact ⟨r, hrmem, hv2⟩
          · show ([mkVote r] : List Vote).length = (ps.set i (Phase.inserted lr)).countP isWinner
            have h := countP_set_add isWinner ps i (Phase.checkedArtwork lr)
              (Phase.inserted lr) hpi
            rw [show isWinner (Phase.checkedArtwork lr) = false from rfl,
              show isWinner (Phase.inserted lr) = true from rfl] at h
            simp at h
            have hc0 : ps.countP isWinner = 0 := by
              simpa using hcnt.symm
            simp [h, hc0]
          · simp
          · show sys.db.contests = _
            exact hcon
          · show sys.db.artworks.map _ = _
            simp only [List.length_nil] at hart
            rw [hart]
            have haidm : (mkVote r).artwork_id = S.aid := by
              simp [mkVote, reqAid, hbA]
            rw [haidm]
            exact bumpArtworks_succ S.sys0.db.artworks S.aid 0
          · have hAc2 : (ps.set i (Phase.inserted lr)).countP isAdmitted
                = ps.countP isAdmitted := by
              have h := countP_set_add isAdmitted ps i (Phase.checkedArtwork lr)
                (Phase.inserted lr) hpi
              simp only [isAdmitted] at h
              simp at h
              omega
            show sys.rl.length = (ps.set i (Phase.inserted lr)).countP isAdmitted
            rw [hAc2]
            exact hrlI
          · apply statuses_set _ ps i _ hstat
            intro resp h
            exact absurd h (by simp)
          · intro _
            simp
          · intro hcc
            have h := countP_set_add is429Done ps i (Phase.checkedArtwork lr)
              (Phase.inserted lr) hpi
            rw [show is429Done (Phase.checkedArtwork lr) = false from rfl,
              show is429Done (Phase.inserted lr) = false from rfl] at h
            simp at h
            exact h429 (by omega)
      | inserted lr =>
        unfold stepVote at hst
        dsimp only at hst
        injection hst with he1 he2
        subst he1
        subst he2
        refine raceInv_still S sys ps i (Phase.inserted lr) _ hpi rfl rfl rfl rfl ?_ hInv
        intro resp h
        injection h with h
        rw [← h]
        exact Or.inl rfl
      | done r0 =>
        unfold stepVote at hst
        dsimp only at hst
        injection hst with he1 he2
        subst he1
        subst he2
        exact raceInv_still S sys ps i (Phase.done r0) (Phase.done r0) hpi rfl rfl rfl rfl
          (fun resp h =>
            raceInv_statuses S sys ps hInv (Phase.done r0) (mem_of_getElem hpi) resp h)
          hInv

/-- One scheduled step preserves the number of requests. -/
theorem schedStep_length (reqs : List Req) (cfg : Sys × List Phase) (i : Nat) :
    (schedStep reqs cfg i).2.length = cfg.2.length := by
  unfold schedStep
  cases hri : reqs[i]? with
  | none => rfl
  | some r =>
    cases hpi : cfg.2[i]? with
    | none => rfl
    | some p =>
      dsimp only
      rcases hs : stepVote r p cfg.1 with ⟨p2, s2⟩
      show (cfg.2.set i p2).length = cfg.2.length
      simp

/-- A schedule preserves the number of requests. -/
theorem runSched_length (reqs : List Req) (sched : List Nat) (cfg : Sys × List Phase) :
    (runSched reqs sched cfg).2.length = cfg.2.length := by
  induction sched generalizing cfg with
  | nil => rfl
  | cons j rest ih =>
    show (runSched reqs rest (schedStep reqs cfg j)).2.length = _
    rw [ih]
    exact schedStep_length reqs cfg j

/-- The race invariant holds along any schedule. -/
theorem raceInv_run (S : VoteRace) (sched : List Nat) (cfg : Sys × List Phase)
    (hInv : RaceInv S cfg.1 cfg.2) :
    RaceInv S (runSched S.reqs sched cfg).1 (runSched S.reqs sched cfg).2 := by
  induction sched generalizing cfg with
  | nil => exact hInv
  | cons j rest ih =>
    show RaceInv S (runSched S.reqs rest (schedStep S.reqs cfg j)).1
      (runSched S.reqs rest (schedStep S.reqs cfg j)).2
    exact ih (schedStep S.reqs cfg j) (raceInv_step S cfg.1 cfg.2 j hInv)

/-- Claim C1 (amended): for every batch of concurrent same-identity vote
submissions and every interleaving that runs all of them to completion,
exactly one submission succeeds, every other submission is rejected with
either the already-voted Conflict (409) outcome or the rate-limited (429)
outcome — a loser that shares the winner's limiter key is stopped by the
quota-1 sliding window with 429 before it reaches the ledger — and the
voted artwork's tally increases by exactly 1, not N: the storage-level
unique constraint on the `votes` table is the serialization point. -/
theorem vote_race_exactly_one_success (S : VoteRace) (sched : List Nat)
    (hdone : ∀ p ∈ (runSched S.reqs sched (S.sys0, initPhases S.reqs)).2, isDone p = true) :
    (runSched S.reqs sched (S.sys0, initPhases S.reqs)).2.countP isSuccessDone = 1
    ∧ (∀ p ∈ (runSched S.reqs sched (S.sys0, initPhases S.reqs)).2,
        isSuccessDone p = true ∨ is409Done p = true ∨ is429Done p = true)
    ∧ ((findArtwork (runSched S.reqs sched (S.sys0, initPhases S.reqs)).1.db S.aid).map
        Artwork.vote_count) = some (S.a.vote_count + 1) := by
  have hInv := raceInv_run S sched (S.sys0, initPhases S.reqs) (raceInv_init S)
  obtain ⟨nv, hv, hsrc, hcnt, hle, hcon, hart, hrlI, hstat, h409, h429⟩ := hInv
  have hclass : ∀ p ∈ (runSched S.reqs sched (S.sys0, initPhases S.reqs)).2,
      isSuccessDone p = true ∨ is409Done p = true ∨ is429Done p = true := by
    intro p hp
    have hd := hdone p hp
    cases p with
    | done resp =>
      rcases hstat _ hp resp rfl with h | h | h
      · exact Or.inl (by simp [isSuccessDone, h])
      · exact Or.inr (Or.inl (by simp [is409Done, h]))
      · exact Or.inr (Or.inr (by simp [is429Done, h]))
    | start => simp [isDone] at hd
    | limited lr => simp [isDone] at hd
    | checkedDup lr => simp [isDone] at hd
    | checkedContest lr => simp [isDone] at hd
    | checkedArtwork lr => simp [isDone] at hd
    | inserted lr => simp [isDone] at hd
  have hWS : (runSched S.reqs sched (S.sys0, initPhases S.reqs)).2.countP isWinner
      = (runSched S.reqs sched (S.sys0, initPhases S.reqs)).2.countP isSuccessDone := by
    apply List.countP_congr
    intro p hp
    have hd := hdone p hp
    cases p with
    | done resp => rfl
    | start => simp [isDone] at hd
    | limited lr => simp [isDone] at hd
    | checkedDup lr => simp [isDone] at hd
    | checkedContest lr => simp [isDone] at hd
    | checkedArtwork lr => simp [isDone] at hd
    | inserted lr => simp [isDone] at hd
  have hone : nv.length = 1 := by
    rcases Nat.lt_or_ge nv.length 1 with hlt | hge
    · exfalso
      have h0 : nv.length = 0 := by omega
      have hnil : nv = [] := List.length_eq_zero.1 h0
      have hz : (runSched S.reqs sched (S.sys0, initPhases S.reqs)).2.countP isSuccessDone
          = 0 := by
        rw [← hWS, ← hcnt, h0]
      have h4z : (runSched S.reqs sched (S.sys0, initPhases S.reqs)).2.countP is409Done
          = 0 := by
        by_contra hne
        exact (h409 hne) hnil
      have hall : ∀ p ∈ (runSched S.reqs sched (S.sys0, initPhases S.reqs)).2,
          is429Done p = true := by
        intro p hp
        rcases hclass p hp with h | h | h
        · exact absurd h (by simpa using List.countP_eq_zero.1 hz p hp)
        · exact absurd h (by simpa using List.countP_eq_zero.1 h4z p hp)
        · exact h
      have hlen429 : (runSched S.reqs sched (S.sys0, initPhases S.reqs)).2.countP is429Done
          = (runSched S.reqs sched (S.sys0, initPhases S.reqs)).2.length :=
        List.countP_eq_length.2 hall
      have hlenpos : (runSched S.reqs sched (S.sys0, initPhases S.reqs)).2.length ≠ 0 := by
        rw [runSched_length]
        show (initPhases S.reqs).length ≠ 0
        unfold initPhases
        rw [List.length_replicate]
        intro hh
        exact S.hne (List.length_eq_zero.1 hh)
      have h429ne : (runSched S.reqs sched (S.sys0, initPhases S.reqs)).2.countP is429Done
          ≠ 0 := by
        rw [hlen429]
        exact hlenpos
      have hrlne := h429 h429ne
      have hadm0 : (runSched S.reqs sched (S.sys0, initPhases S.reqs)).2.countP isAdmitted
          = 0 := by
        apply List.countP_eq_zero.2
        intro p hp
        have h4 := hall p hp
        cases p with
        | done resp =>
          have hns := List.countP_eq_zero.1 hz _ hp
          have hsf : resp.success = false := by
            simpa [isSuccessDone] using hns
          have hs429 : resp.status = 429 := by
            simpa [is429Done] using h4
          simp [isAdmitted, hsf, hs429]
        | start => simp [is429Done] at h4
        | limited lr => simp [is429Done] at h4
        | checkedDup lr => simp [is429Done] at h4
        | checkedContest lr => simp [is429Done] at h4
        | checkedArtwork lr => simp [is429Done] at h4
        | inserted lr => simp [is429Done] at h4
      rw [hadm0] at hrlI
      exact hrlne (List.length_eq_zero.1 hrlI)
    · omega
  refine ⟨?_, hclass, ?_⟩
  · rw [← hWS, ← hcnt, hone]
  · show (((runSched S.reqs sched (S.sys0, initPhases S.reqs)).1.db.artworks.find?
        (fun a => a.id == S.aid)).map Artwork.vote_count) = _
    rw [hart, hone]
    unfold bumpArtworks
    rw [find_map_id_pres _ _ _ (bumpArtworks_id S.aid 1)]
    rw [show S.sys0.db.artworks.find? (fun a => a.id == S.aid) = some S.a from S.hfa]
    have haid_eq : (S.a.id == S.aid) = true :=
      List.find?_some (p := fun x : Artwork => x.id == S.aid)
        (show S.sys0.db.artworks.find? (fun a => a.id == S.aid) = some S.a from S.hfa)
    simp only [Option.map_some']
    rw [if_pos haid_eq]

set_option maxRecDepth 8192 in
/-- Witness: the amended C1 theorem at a concrete one-request race run to
completion. -/
theorem vote_race_exactly_one_success_witness :
    (runSched [anonReq "1.2.3.4" 500] [0, 0, 0, 0, 0, 0]
      (freshSys, initPhases [anonReq "1.2.3.4" 500])).2.countP isSuccessDone = 1 :=
  (vote_race_exactly_one_success
    { reqs := [anonReq "1.2.3.4" 500], sys0 := freshSys, cid := arenaCid, aid := arenaAid,
      c := { id := arenaCid, status := "active", end_date := 1000 },
      a := { id := arenaAid, contest_id := arenaCid, vote_count := 0 },
      hne := by decide, hbody := by decide, haid := by decide, hcid := by decide,
      hident := by decide, hclean := by decide, hcleanUser := by decide,
      hcleanIp := by decide, hrl0 := rfl, hfc := by decide, hact := rfl,
      hopen := by decide, hfa := by decide, hawc := rfl }
    [0, 0, 0, 0, 0, 0] (by decide)).1

/-- Two concurrent anonymous submissions from the same address for the
same contest. -/
def c1reqs : List Req := [anonReq "8.8.8.8" 500, anonReq "8.8.8.8" 500]

set_option maxRecDepth 8192 in
/-- Counterexample to claim C1 as stated: in a complete interleaving of
two concurrent same-identity submissions, exactly one succeeds, but the
other is rejected with the rate-limited 429 outcome — not with the
Conflict (already-voted, 409) outcome the claim promises for all N−1
losers: the quota-1 limiter, keyed by the shared client IP, serializes
them before the ledger is reached. -/
theorem vote_race_conflict_only_cex :
    (runSched c1reqs [0, 0, 0, 0, 0, 0, 1] (freshSys, initPhases c1reqs)).2.countP
      isSuccessDone = 1
    ∧ (runSched c1reqs [0, 0, 0, 0, 0, 0, 1] (freshSys, initPhases c1reqs)).2.countP
      is409Done = 0
    ∧ (runSched c1reqs [0, 0, 0, 0, 0, 0, 1] (freshSys, initPhases c1reqs)).2.countP
      is429Done = 1
    ∧ (∀ p ∈ (runSched c1reqs [0, 0, 0, 0, 0, 0, 1] (freshSys, initPhases c1reqs)).2,
        isDone p = true) := by
  decide

/-- Witness: the C2 theorem at a concrete operation sequence — an insert,
an artwork creation and a delete starting from a consistent store. -/
theorem tally_consistency_preserved_witness :
    tallyInv
      ([LedgerOp.insVote
          { artwork_id := arenaAid, contest_id := arenaCid, user_id := none,
            ip_hash := hashIP "3.3.3.3", user_agent := none },
        LedgerOp.newArtwork "art-b" arenaCid,
        LedgerOp.delVote
          { artwork_id := arenaAid, contest_id := arenaCid, user_id := none,
            ip_hash := hashIP "3.3.3.3", user_agent := none }].foldl applyOp freshDB) :=
  tally_consistency_preserved freshDB _ (by unfold tallyInv; decide) (by decide)
